import Mathlib

/-
  Verification of the Save2 invoice-processing core (src/main.py) against its
  natural-language specification.

  Shallow-embedding conventions, used throughout this file:

  * Text is modelled as `List Nat` (Unicode code points).  The Python string
    functions used by the code (`lower`, `upper`, `title`, `strip`, `split`,
    substring tests) are modelled character-arithmetically for the ASCII
    range, which covers every string constant, pattern and keyword of the
    source.
  * Python `float` is modelled as `ℚ` (exact arithmetic).  All monetary
    values handled by the code have short decimal expansions, and every
    claim in scope is about comparisons and sums of such values.  The one
    visible divergence is a score summing exactly to the 0.75 review
    threshold: binary floating point can land a rounding error below the
    threshold where exact arithmetic meets it — the review flag still
    equals `confidence < threshold` for the stored value in both models,
    which is what the claims compare.
  * `datetime.now()` is modelled as an explicit parameter (`today : PyDate`)
    threaded through the functions that call it; within one extraction run
    the code reads the clock for a single calendar date.
  * The external `dateparser.parse` library function is modelled as an
    explicit parameter `dparse : List Nat → Option PyDate`; the repository
    does not contain it, and no claim depends on its internals.
  * The regular-expression matching of Python's `re` module (`re.search`,
    `re.findall`, flags IGNORECASE/MULTILINE) is implemented below as a
    backtracking matcher with Python's leftmost, preference-ordered
    semantics; the source's pattern strings are translated rule for rule
    into `RE` values.
  * `hashlib.md5(...).hexdigest()` is implemented bit for bit (RFC 1321)
    over UTF-8 bytes.
  * The sqlite `invoices` table of `DatabaseManager` is modelled as a list
    of rows; `INSERT OR REPLACE` on the `invoice_hash UNIQUE` column
    replaces every row carrying the same hash.  Wall-clock timing
    (`processing_time`) and the debug-only `extracted_fields` dictionary
    are outside the model; no claim mentions them.
-/

namespace Save2

attribute [local semireducible] Rat.add Rat.mul Rat.sub Rat.inv Rat.ofScientific

/-- Code points of a Lean string literal, the bridge from written text to the
`List Nat` representation used by the whole embedding. -/
def strCodes (s : String) : List Nat := s.data.map Char.toNat

/-- Decimal digit, ASCII. -/
def isDigitC (n : Nat) : Bool := 48 ≤ n && n ≤ 57

/-- Uppercase ASCII letter. -/
def isUpperC (n : Nat) : Bool := 65 ≤ n && n ≤ 90

/-- Lowercase ASCII letter. -/
def isLowerC (n : Nat) : Bool := 97 ≤ n && n ≤ 122

/-- ASCII letter; model of Python's notion of a cased character on the
alphabets that occur in the source. -/
def isAlphaC (n : Nat) : Bool := isUpperC n || isLowerC n

/-- Model of Python `str.lower` on one character. -/
def toLowerC (n : Nat) : Nat := if isUpperC n then n + 32 else n

/-- Model of Python `str.upper` on one character. -/
def toUpperC (n : Nat) : Nat := if isLowerC n then n - 32 else n

/-- Whitespace characters: space, tab, newline, carriage return, vertical
tab, form feed — the ASCII content of Python's `\s` and `str.strip`. -/
def isSpaceC (n : Nat) : Bool :=
  n == 32 || n == 9 || n == 10 || n == 13 || n == 11 || n == 12

/-- Python `str.lower`. -/
def strLower (s : List Nat) : List Nat := s.map toLowerC

/-- Python `str.upper`. -/
def strUpper (s : List Nat) : List Nat := s.map toUpperC

/-- One step of Python `str.title`: `prev` records whether the previous
character was cased.  A cased character is uppercased after an uncased
position and lowercased after a cased one. -/
def titleGo (prev : Bool) : List Nat → List Nat
  | [] => []
  | c :: cs =>
      (if isAlphaC c then (if prev then toLowerC c else toUpperC c) else c)
        :: titleGo (isAlphaC c) cs

/-- Python `str.title`. -/
def pyTitle (s : List Nat) : List Nat := titleGo false s

/-- Python `str.strip` (whitespace both ends). -/
def pyStrip (s : List Nat) : List Nat :=
  ((s.dropWhile isSpaceC).reverse.dropWhile isSpaceC).reverse

/-- Does `pat` occur at the very front of `hay`? -/
def leadsWith : List Nat → List Nat → Bool
  | [], _ => true
  | _ :: _, [] => false
  | a :: as, b :: bs => a == b && leadsWith as bs

/-- Python's substring test `pat in hay`. -/
def containsSub (hay pat : List Nat) : Bool :=
  leadsWith pat hay ||
    match hay with
    | [] => false
    | _ :: t => containsSub t pat

/-- Split at every occurrence of the character `c`; model of Python
`str.split(c)`. -/
def splitOnC (c : Nat) (s : List Nat) : List (List Nat) :=
  match s with
  | [] => [[]]
  | a :: t =>
      let r := splitOnC c t
      if a == c then [] :: r
      else
        match r with
        | [] => [[a]]
        | h :: rt => (a :: h) :: rt

/-- Whitespace-separated words of a string; model of Python `str.split()`
with no argument (empty pieces are discarded). -/
def splitWsGo (cur : List Nat) (acc : List (List Nat)) : List Nat → List (List Nat)
  | [] => if cur.isEmpty then acc.reverse else (cur.reverse :: acc).reverse
  | c :: cs =>
      if isSpaceC c then
        if cur.isEmpty then splitWsGo [] acc cs
        else splitWsGo [] (cur.reverse :: acc) cs
      else splitWsGo (c :: cur) acc cs

/-- Python `str.split()` without argument. -/
def splitWs (s : List Nat) : List (List Nat) := splitWsGo [] [] s

/-- Decimal digit characters of a natural number, most significant first. -/
def natDigits (n : Nat) : List Nat :=
  (Nat.toDigits 10 n).map Char.toNat

/-- Left-pad a digit string with zeros to width `w`; model of zero-padded
`strftime` fields. -/
def padZeros (w : Nat) (ds : List Nat) : List Nat :=
  List.replicate (w - ds.length) 48 ++ ds

/-- Abstract syntax of the fragment of Python regular expressions used by
`src/main.py`: character classes, concatenation, left-preference
alternation, greedy and lazy `*`/`?`, numbered capture groups, and the
MULTILINE `^` / `$` anchors.  Bounded repetitions are expanded by the
combinators further down. -/
inductive RE where
  | eps
  | cls (f : Nat → Bool)
  | seq (a b : RE)
  | alt (a b : RE)
  | star (greedy : Bool) (a : RE)
  | opt (greedy : Bool) (a : RE)
  | grp (i : Nat) (a : RE)
  | bolM
  | eolM

/-- Matcher state: the character before the current position (for `^`),
the rest of the text, and the captures recorded so far. -/
structure MSt where
  prev : Option Nat
  rest : List Nat
  caps : List (Nat × List Nat)

/-- Backtracking matcher in continuation-passing style, reproducing
Python's leftmost, preference-ordered (greedy/lazy) match semantics.
Alternatives are tried left to right; the fuel bounds the recursion and is
instantiated generously by the `search`/`findall` wrappers. -/
def mrun (fuel : Nat) (e : RE) (st : MSt) (k : MSt → Option MSt) : Option MSt :=
  match fuel with
  | 0 => none
  | fuel + 1 =>
    match e with
    | .eps => k st
    | .cls f =>
        match st.rest with
        | [] => none
        | c :: cs => if f c then k ⟨some c, cs, st.caps⟩ else none
    | .seq a b => mrun fuel a st (fun st1 => mrun fuel b st1 k)
    | .alt a b =>
        match mrun fuel a st k with
        | some r => some r
        | none => mrun fuel b st k
    | .opt g a =>
        if g then
          match mrun fuel a st k with
          | some r => some r
          | none => k st
        else
          match k st with
          | some r => some r
          | none => mrun fuel a st k
    | .star g a =>
        if g then
          match mrun fuel a st (fun st1 =>
              if st1.rest.length < st.rest.length then
                mrun fuel (.star g a) st1 k
              else none) with
          | some r => some r
          | none => k st
        else
          match k st with
          | some r => some r
          | none =>
              mrun fuel a st (fun st1 =>
                if st1.rest.length < st.rest.length then
                  mrun fuel (.star g a) st1 k
                else none)
    | .grp i a =>
        mrun fuel a st (fun st1 =>
          k ⟨st1.prev, st1.rest,
             st1.caps ++ [(i, st.rest.take (st.rest.length - st1.rest.length))]⟩)
    | .bolM =>
        match st.prev with
        | none => k st
        | some c => if c == 10 then k st else none
    | .eolM =>
        match st.rest with
        | [] => k st
        | c :: _ => if c == 10 then k st else none

/-- Content of capture group `i` after a successful match (the last
occurrence recorded, as in Python). -/
def groupOf (i : Nat) (st : MSt) : Option (List Nat) :=
  (st.caps.reverse.find? (fun p => p.1 == i)).map Prod.snd

/-- Fuel budget for one anchored match attempt; ample for every pattern of
the source on the text in hand. -/
def mFuel (s : List Nat) : Nat := 600 * (s.length + 4)

/-- Scan of the start positions of `re.search`: attempt an anchored match at
each successive position, left to right. -/
def searchGo (e : RE) (prev : Option Nat) (s : List Nat) : Option MSt :=
  match mrun (mFuel s) e ⟨prev, s, []⟩ some with
  | some r => some r
  | none =>
      match s with
      | [] => none
      | c :: cs => searchGo e (some c) cs

/-- Python `re.search(e, text)`. -/
def reSearch (e : RE) (text : List Nat) : Option MSt :=
  searchGo e none text

/-- Worker for `re.findall`: after each non-empty match, scanning resumes at
the match end; an empty match or a failed position advances one character. -/
def findallGo (fuel : Nat) (e : RE) (g : Nat) (prev : Option Nat)
    (s : List Nat) : List (List Nat) :=
  match fuel with
  | 0 => []
  | fuel + 1 =>
    match mrun (mFuel s) e ⟨prev, s, []⟩ some with
    | some r =>
        let m := (groupOf g r).getD []
        if s.length - r.rest.length == 0 then
          match s with
          | [] => [m]
          | c :: cs => m :: findallGo fuel e g (some c) cs
        else m :: findallGo fuel e g r.prev r.rest
    | none =>
        match s with
        | [] => []
        | c :: cs => findallGo fuel e g (some c) cs

/-- Python `re.findall(e, text)` for a pattern with one capture group `g`:
the list of that group's captures over all matches. -/
def reFindall (e : RE) (g : Nat) (text : List Nat) : List (List Nat) :=
  findallGo (text.length + 1) e g none text

/-- Single literal character, optionally case-insensitive. -/
def lit1 (ci : Bool) (c : Nat) : RE :=
  .cls (fun x => if ci then toLowerC x == toLowerC c else x == c)

/-- Literal word, optionally case-insensitive (IGNORECASE). -/
def litS (ci : Bool) (s : String) : RE :=
  (strCodes s).foldr (fun c acc => .seq (lit1 ci c) acc) .eps

/-- Concatenation of a rule list. -/
def reCat (l : List RE) : RE := l.foldr .seq .eps

/-- Left-to-right alternation of a rule list. -/
def reAlts (l : List RE) : RE :=
  match l with
  | [] => .eps
  | [e] => e
  | e :: t => .alt e (reAlts t)

/-- Exactly `n` copies, the `{n}` quantifier. -/
def repExact (n : Nat) (e : RE) : RE :=
  match n with
  | 0 => .eps
  | n + 1 => .seq e (repExact n e)

/-- Greedy `{0,k}`. -/
def upTo (k : Nat) (e : RE) : RE :=
  match k with
  | 0 => .eps
  | k + 1 => .opt true (.seq e (upTo k e))

/-- Greedy `{m,n}`. -/
def repRange (m n : Nat) (e : RE) : RE := .seq (repExact m e) (upTo (n - m) e)

/-- Greedy or lazy `+`. -/
def rePlus (g : Bool) (e : RE) : RE := .seq e (.star g e)

/-- Digit class `\d` (ASCII). -/
def reDigit : RE := .cls isDigitC

/-- Whitespace class `\s` (ASCII). -/
def reWsp : RE := .cls isSpaceC

/-- Case-sensitive literal character from a `Char`. -/
def chNum (c : Char) : RE := .cls (fun x => x == c.toNat)

/-- Money figure `\d{1,3}(?:,\d{3})*(?:\.\d{2})?`, shared by the amount,
subtotal and vat rules. -/
def moneyNum : RE :=
  reCat [repRange 1 3 reDigit,
         .star true (reCat [chNum ',', repExact 3 reDigit]),
         .opt true (reCat [chNum '.', repExact 2 reDigit])]

/-- Money figure with mandatory cents, `\d{1,3}(?:,\d{3})*\.\d{2}` (the
line-end amount rule). -/
def moneyNumDec : RE :=
  reCat [repRange 1 3 reDigit,
         .star true (reCat [chNum ',', repExact 3 reDigit]),
         chNum '.', repExact 2 reDigit]

/-- Class `[:\s]*`. -/
def colWsStar : RE := .star true (.cls (fun c => c == 58 || isSpaceC c))

/-- Optional currency marker `(?:aed\s*)?`. -/
def aedWsOpt : RE := .opt true (reCat [litS true "aed", .star true reWsp])

/-- The five ordered amount rules of `self.patterns["amount"]`
(IGNORECASE and MULTILINE):
rule 1 labelled totals, rule 2 `aed`-prefixed, rule 3 `aed`/dirham-suffixed,
rule 4 bare `total`, rule 5 a decimal figure at line end. -/
def amountPats : List RE :=
  [reCat [reAlts [litS true "total", litS true "amount",
                  reCat [litS true "grand", rePlus true reWsp, litS true "total"],
                  reCat [litS true "final", rePlus true reWsp, litS true "amount"]],
          colWsStar, aedWsOpt, .grp 1 moneyNum],
   reCat [litS true "aed", .star true reWsp, .grp 1 moneyNum],
   reCat [.grp 1 moneyNum, .star true reWsp,
          reAlts [litS true "aed", reCat [chNum 'د', chNum '.', chNum 'إ']]],
   reCat [litS true "total", colWsStar, .grp 1 moneyNum],
   reCat [.grp 1 moneyNumDec, .star true reWsp, .eolM]]

/-- The two subtotal rules of `self.patterns["subtotal"]`. -/
def subtotalPats : List RE :=
  [reCat [reAlts [litS true "subtotal",
                  reCat [litS true "sub", rePlus true reWsp, litS true "total"],
                  reCat [litS true "net", rePlus true reWsp, litS true "amount"]],
          colWsStar, aedWsOpt, .grp 1 moneyNum],
   reCat [litS true "amount", rePlus true reWsp, litS true "before",
          rePlus true reWsp, litS true "vat", colWsStar, .grp 1 moneyNum]]

/-- The three vat rules of `self.patterns["vat"]`. -/
def vatPats : List RE :=
  [reCat [reAlts [litS true "vat", litS true "tax",
                  reCat [litS true "value", rePlus true reWsp, litS true "added",
                         rePlus true reWsp, litS true "tax"]],
          .star true (.cls (fun c => c == 58 || c == 64 || isSpaceC c)),
          .opt true (reCat [litS true "5%", .star true reWsp]),
          aedWsOpt, .grp 1 moneyNum],
   reCat [litS true "5%", colWsStar, aedWsOpt, .grp 1 moneyNum],
   reCat [litS true "tax", rePlus true reWsp, litS true "amount",
          colWsStar, .grp 1 moneyNum]]

/-- Class `[a-z0-9\-\/]` under IGNORECASE. -/
def invNumChar : RE :=
  .cls (fun c => isLowerC c || isUpperC c || isDigitC c || c == 45 || c == 47)

/-- The three invoice-number rules of `self.patterns["invoice_number"]`. -/
def invoiceNumPats : List RE :=
  [reCat [reAlts [reCat [litS true "invoice", rePlus true reWsp,
                         reAlts [litS true "no", litS true "number", litS true "#"]],
                  reCat [litS true "inv", .star true reWsp, .opt true (litS true "#")],
                  reCat [litS true "receipt", rePlus true reWsp,
                         reAlts [litS true "no", litS true "#"]]],
          colWsStar, .grp 1 (rePlus true invNumChar)],
   reCat [litS true "#", .star true reWsp,
          .grp 1 (.seq (repExact 3 invNumChar) (.star true invNumChar))],
   reCat [litS true "invoice", colWsStar,
          .grp 1 (.seq (repExact 3 invNumChar) (.star true invNumChar))]]

/-- Date separator class `[\/\-\.]`. -/
def dateSep : RE := .cls (fun c => c == 47 || c == 45 || c == 46)

/-- The three date rules of `self.patterns["date"]`. -/
def datePats : List RE :=
  [reCat [reAlts [litS true "date",
                  reCat [litS true "invoice", rePlus true reWsp, litS true "date"],
                  reCat [litS true "bill", rePlus true reWsp, litS true "date"]],
          colWsStar,
          .grp 1 (reCat [repRange 1 2 reDigit, dateSep, repRange 1 2 reDigit,
                         dateSep, repRange 2 4 reDigit])],
   .grp 1 (reCat [repRange 1 2 reDigit, dateSep, repRange 1 2 reDigit,
                  dateSep, repExact 4 reDigit]),
   .grp 1 (reCat [repExact 4 reDigit, dateSep, repRange 1 2 reDigit,
                  dateSep, repRange 1 2 reDigit])]

/-- The single due-date rule of `self.patterns["due_date"]`. -/
def dueDatePats : List RE :=
  [reCat [reAlts [reCat [litS true "due", rePlus true reWsp, litS true "date"],
                  reCat [litS true "payment", rePlus true reWsp, litS true "due"]],
          colWsStar,
          .grp 1 (reCat [repRange 1 2 reDigit, dateSep, repRange 1 2 reDigit,
                         dateSep, repRange 2 4 reDigit])]]

/-- The two TRN rules of `self.patterns["trn"]`. -/
def trnPats : List RE :=
  [reCat [reAlts [litS true "trn",
                  reCat [litS true "tax", rePlus true reWsp, litS true "registration"],
                  reCat [litS true "vat", rePlus true reWsp, litS true "reg"]],
          .star true (.cls (fun c => c == 58 || c == 35 || isSpaceC c)),
          .grp 1 (repExact 15 reDigit)],
   reCat [litS true "trn", colWsStar, .grp 1 (repExact 15 reDigit)]]

/-- Class `[0-9\s\-]`. -/
def phoneChar : RE := .cls (fun c => isDigitC c || isSpaceC c || c == 45)

/-- The three phone rules of `self.patterns["phone"]`. -/
def phonePats : List RE :=
  [reCat [reAlts [litS true "tel", litS true "phone", litS true "mobile"],
          colWsStar,
          .grp 1 (reCat [litS true "+971", .star true reWsp, repRange 1 2 reDigit,
                         .star true reWsp, repExact 3 reDigit,
                         .star true reWsp, repExact 4 reDigit])],
   .grp 1 (reCat [litS true "+971", repExact 8 phoneChar, .star true phoneChar]),
   .grp 1 (reCat [litS true "0", repExact 8 phoneChar, .star true phoneChar])]

/-- Vendor-name character class `[a-zA-Z\s&\.\-]`, case sensitive (the
vendor rules carry no IGNORECASE flag). -/
def vendChar : RE :=
  .cls (fun c => isAlphaC c || isSpaceC c || c == 38 || c == 46 || c == 45)

/-- Uppercase-run character class `[A-Z\s&\.]`. -/
def vendCapChar : RE :=
  .cls (fun c => isUpperC c || isSpaceC c || c == 38 || c == 46)

/-- The three fallback vendor rules of `_extract_vendor_name`
(MULTILINE, case sensitive): a labelled name, a capitalized line start,
and a run of capitals. -/
def vendorPats : List RE :=
  [reCat [reAlts [litS false "from", litS false "vendor", litS false "company",
                  reCat [litS false "billed", rePlus true reWsp, litS false "by"]],
          colWsStar, .grp 1 (rePlus true vendChar)],
   .seq .bolM (.grp 1 (reCat [.cls isUpperC, repRange 2 30 vendChar])),
   .grp 1 (reCat [.cls isUpperC, repRange 5 30 vendCapChar])]

/-- Any character but a newline, the `.` class without DOTALL. -/
def dotChar : RE := .cls (fun c => !(c == 10))

/-- The three address rules of `_extract_address` (IGNORECASE, MULTILINE):
an emirate name, a country marker, or a P.O. box. -/
def addressPats : List RE :=
  [.grp 1 (reCat [.star true dotChar,
                  reAlts [litS true "dubai", litS true "abu dhabi", litS true "sharjah",
                          litS true "ajman", litS true "fujairah",
                          litS true "ras al khaimah", litS true "umm al quwain"],
                  .star true dotChar]),
   .grp 1 (reCat [.star true dotChar,
                  reAlts [litS true "uae", litS true "united arab emirates"],
                  .star true dotChar]),
   .grp 1 (reCat [litS true "p", .opt true (chNum '.'), litS true "o",
                  .opt true (chNum '.'), .star true reWsp, litS true "box",
                  .star true reWsp, rePlus true reDigit, .star true dotChar])]

/-- Large-number test `\d{1,3},?\d{3}` used by `_generate_description`. -/
def bigNumPat : RE :=
  reCat [repRange 1 3 reDigit, .opt true (chNum ','), repExact 3 reDigit]

/-- Label test `date|total|vat|trn` (IGNORECASE) used by
`_generate_description`. -/
def labelPat : RE :=
  reAlts [litS true "date", litS true "total", litS true "vat", litS true "trn"]

/-- Line-item shape `(.+?)\s+(\d+(?:\.\d+)?)\s+(\d+(?:,\d{3})*(?:\.\d{2})?)`
with a lazy description, a quantity and an amount. -/
def lineItemPat : RE :=
  reCat [.grp 1 (rePlus false dotChar),
         rePlus true reWsp,
         .grp 2 (.seq (rePlus true reDigit)
                      (.opt true (.seq (chNum '.') (rePlus true reDigit)))),
         rePlus true reWsp,
         .grp 3 (reCat [rePlus true reDigit,
                        .star true (reCat [chNum ',', repExact 3 reDigit]),
                        .opt true (reCat [chNum '.', repExact 2 reDigit])])]

/-- Natural number denoted by a string of decimal digit characters. -/
def natOfDigits (s : List Nat) : Nat :=
  s.foldl (fun acc c => 10 * acc + (c - 48)) 0

/-- Model of Python `float()` on the digit strings delivered by the money
rules: an integer part and an optional fractional part separated by one
dot.  Commas are removed by the callers first, as in the source. -/
def parseDec (s : List Nat) : Option ℚ :=
  match splitOnC 46 s with
  | [ip] =>
      if ip ≠ [] ∧ ip.all isDigitC then some (natOfDigits ip) else none
  | [ip, fp] =>
      if (ip ≠ [] ∨ fp ≠ []) ∧ ip.all isDigitC ∧ fp.all isDigitC ∧ fp ≠ [] then
        some ((natOfDigits ip : ℚ) + (natOfDigits fp : ℚ) / (10 : ℚ) ^ fp.length)
      else none
  | _ => none

/-- Strip the commas of a captured figure, Python `match.replace(",", "")`. -/
def dropCommas (s : List Nat) : List Nat := s.filter (fun c => !(c == 44))

/-- Calendar date, the payload of the `datetime` values the code handles. -/
structure PyDate where
  year : Nat
  month : Nat
  day : Nat
deriving DecidableEq, Repr

/-- Gregorian leap year. -/
def isLeap (y : Nat) : Bool := y % 4 == 0 && (y % 100 != 0 || y % 400 == 0)

/-- Days in a month, with the leap rule. -/
def daysInMonth (y m : Nat) : Nat :=
  if m == 2 then (if isLeap y then 29 else 28)
  else if m == 4 || m == 6 || m == 9 || m == 11 then 30
  else 31

/-- Python `strftime("%Y-%m-%d")`. -/
def fmtDate (dt : PyDate) : List Nat :=
  padZeros 4 (natDigits dt.year) ++ [45] ++ padZeros 2 (natDigits dt.month)
    ++ [45] ++ padZeros 2 (natDigits dt.day)

/-- Python `strptime(s, "%Y-%m-%d")`: three dash-separated digit fields of
the usual widths, with calendar validation; `none` models the
`ValueError`. -/
def parseYMD (s : List Nat) : Option PyDate :=
  match splitOnC 45 s with
  | [ys, ms, ds] =>
      if ys ≠ [] ∧ ys.length ≤ 4 ∧ ys.all isDigitC ∧
         ms ≠ [] ∧ ms.length ≤ 2 ∧ ms.all isDigitC ∧
         ds ≠ [] ∧ ds.length ≤ 2 ∧ ds.all isDigitC then
        let y := natOfDigits ys
        let m := natOfDigits ms
        let d := natOfDigits ds
        if 1 ≤ y ∧ y ≤ 9999 ∧ 1 ≤ m ∧ m ≤ 12 ∧ 1 ≤ d ∧ d ≤ daysInMonth y m then
          some ⟨y, m, d⟩
        else none
      else none
  | _ => none

/-- Strict order on dates; `a` is after `b`.  An invoice date (midnight) is
after `datetime.now()` exactly when its calendar day is later than
today's. -/
def dateAfter (a b : PyDate) : Bool :=
  b.year < a.year ||
    (a.year == b.year && (b.month < a.month ||
      (a.month == b.month && b.day < a.day)))

/-- All group-1 captures of the ordered amount rules, in rule order then
match order — the match collection of `_extract_amount`. -/
def amountMatchList (text : List Nat) : List (List Nat) :=
  (amountPats.map (fun p => reFindall p 1 text)).flatten

/-- The filtering loop body of `_extract_amount`: parse each capture and
keep the values inside the sane bound `0.01 ≤ a ≤ 1000000`. -/
def collectAmounts : List (List Nat) → List ℚ
  | [] => []
  | m :: ms =>
      match parseDec (dropCommas m) with
      | some a =>
          if (1 : ℚ) / 100 ≤ a ∧ a ≤ 1000000 then a :: collectAmounts ms
          else collectAmounts ms
      | none => collectAmounts ms

/-- `_extract_amount`: the largest in-bound capture of the amount rules,
`0.0` when there is none. -/
def extract_amount (text : List Nat) : ℚ :=
  match collectAmounts (amountMatchList text) with
  | [] => 0
  | a :: rest => rest.foldl max a

/-- First-match-wins search over a rule list that parses group 1 as a
float; the shared shape of `_extract_subtotal` and `_extract_vat`. -/
def firstMoney : List RE → List Nat → Option ℚ
  | [], _ => none
  | p :: ps, text =>
      match reSearch p text with
      | some r =>
          match parseDec (dropCommas ((groupOf 1 r).getD [])) with
          | some a => some a
          | none => firstMoney ps text
      | none => firstMoney ps text

/-- `_extract_subtotal`. -/
def extract_subtotal (text : List Nat) : ℚ :=
  (firstMoney subtotalPats text).getD 0

/-- `_extract_vat`. -/
def extract_vat (text : List Nat) : ℚ :=
  (firstMoney vatPats text).getD 0

/-- `_extract_invoice_number`: first rule whose stripped capture has at
least three characters, uppercased; empty otherwise. -/
def extract_invoice_number : List Nat → List Nat :=
  fun text => go invoiceNumPats text
where
  go : List RE → List Nat → List Nat
    | [], _ => []
    | p :: ps, text =>
        match reSearch p text with
        | some r =>
            let inv := pyStrip ((groupOf 1 r).getD [])
            if 3 ≤ inv.length then strUpper inv else go ps text
        | none => go ps text

/-- The inner loop of `_extract_date`: the first capture (rule order, then
match order) that the date parser accepts with a year at or above the 2020
floor. -/
def firstGoodDate (dparse : List Nat → Option PyDate) :
    List (List Nat) → Option PyDate
  | [] => none
  | m :: ms =>
      match dparse m with
      | some dt => if 2020 ≤ dt.year then some dt else firstGoodDate dparse ms
      | none => firstGoodDate dparse ms

/-- Rule loop of `_extract_date` before the today default is applied;
`none` means no rule produced an accepted date. -/
def extractDateAux (dparse : List Nat → Option PyDate) : List RE → List Nat → Option PyDate
  | [], _ => none
  | p :: ps, text =>
      match firstGoodDate dparse (reFindall p 1 text) with
      | some dt => some dt
      | none => extractDateAux dparse ps text

/-- `_extract_date`: format the first accepted capture; default to today's
date when no rule parses. -/
def extract_date (dparse : List Nat → Option PyDate) (today : PyDate)
    (text : List Nat) : List Nat :=
  match extractDateAux dparse datePats text with
  | some dt => fmtDate dt
  | none => fmtDate today

/-- `_extract_due_date`: first due-date rule whose capture parses (no year
floor here); empty when none does. -/
def extract_due_date (dparse : List Nat → Option PyDate) : List Nat → List Nat :=
  fun text => go dueDatePats text
where
  go : List RE → List Nat → List Nat
    | [], _ => []
    | p :: ps, text =>
        match reSearch p text with
        | some r =>
            match dparse ((groupOf 1 r).getD []) with
            | some dt => fmtDate dt
            | none => go ps text
        | none => go ps text

/-- The closed list of well-known vendors checked first by
`_extract_vendor_name` (case-insensitive substring match). -/
def uaeVendors : List String :=
  ["emirates nbd", "adcb", "fab", "mashreq", "cbd", "rakbank", "hsbc",
   "etisalat", "du", "dewa", "addc", "sewa", "fewa",
   "carrefour", "lulu", "spinneys", "waitrose", "union coop",
   "amazon", "noon", "talabat", "deliveroo", "zomato"]

/-- The sentinel value for an unidentified vendor. -/
def unknownVendor : List Nat := strCodes "Unknown Vendor"

/-- The fallback rule loop of `_extract_vendor_name`: first rule whose
stripped capture is 3–50 characters and digit-free wins, title-cased; the
sentinel closes the loop. -/
def vendorFromPats : List RE → List Nat → List Nat
  | [], _ => unknownVendor
  | p :: ps, text =>
      match reSearch p text with
      | some r =>
          if 3 ≤ (pyStrip ((groupOf 1 r).getD [])).length ∧
             (pyStrip ((groupOf 1 r).getD [])).length ≤ 50 ∧
             (pyStrip ((groupOf 1 r).getD [])).all (fun c => !isDigitC c) then
            pyTitle (pyStrip ((groupOf 1 r).getD []))
          else vendorFromPats ps text
      | none => vendorFromPats ps text

/-- `_extract_vendor_name`: known vendors first, then the three fallback
rules, then the sentinel. -/
def extract_vendor_name (text : List Nat) : List Nat :=
  match uaeVendors.find? (fun v => containsSub (strLower text) (strCodes v)) with
  | some v => pyTitle (strCodes v)
  | none => vendorFromPats vendorPats text

/-- `_extract_trn`: first rule whose capture is a 15-digit token. -/
def extract_trn : List Nat → List Nat :=
  fun text => go trnPats text
where
  go : List RE → List Nat → List Nat
    | [], _ => []
    | p :: ps, text =>
        match reSearch p text with
        | some r =>
            let trn := (groupOf 1 r).getD []
            if trn.length = 15 ∧ trn.all isDigitC then trn else go ps text
        | none => go ps text

/-- `_extract_phone`: the stripped capture of the first phone rule that
matches. -/
def extract_phone : List Nat → List Nat :=
  fun text => go phonePats text
where
  go : List RE → List Nat → List Nat
    | [], _ => []
    | p :: ps, text =>
        match reSearch p text with
        | some r => pyStrip ((groupOf 1 r).getD [])
        | none => go ps text

/-- `_extract_address`: first address rule whose stripped capture is 10 to
200 characters long. -/
def extract_address : List Nat → List Nat :=
  fun text => go addressPats text
where
  go : List RE → List Nat → List Nat
    | [], _ => []
    | p :: ps, text =>
        match reSearch p text with
        | some r =>
            let addr := pyStrip ((groupOf 1 r).getD [])
            if 10 ≤ addr.length ∧ addr.length ≤ 200 then addr else go ps text
        | none => go ps text

/-- The `ExpenseCategory` enum of the source, all sixteen members. -/
inductive ExpenseCategory where
  | MEDICAL_SUPPLIES
  | OFFICE_RENT
  | UTILITIES
  | EQUIPMENT
  | INSURANCE
  | LICENSES
  | PROFESSIONAL_FEES
  | MARKETING
  | TRANSPORTATION
  | MEALS
  | OFFICE_SUPPLIES
  | TELECOMMUNICATIONS
  | MAINTENANCE
  | TRAINING
  | BANK_CHARGES
  | MISCELLANEOUS
deriving DecidableEq, Repr

/-- The display value of each enum member (`ExpenseCategory(...).value`). -/
def catValue : ExpenseCategory → List Nat
  | .MEDICAL_SUPPLIES => strCodes "Medical Supplies"
  | .OFFICE_RENT => strCodes "Office Rent"
  | .UTILITIES => strCodes "Utilities"
  | .EQUIPMENT => strCodes "Equipment"
  | .INSURANCE => strCodes "Insurance"
  | .LICENSES => strCodes "Professional Licenses"
  | .PROFESSIONAL_FEES => strCodes "Professional Fees"
  | .MARKETING => strCodes "Marketing & Advertising"
  | .TRANSPORTATION => strCodes "Transportation"
  | .MEALS => strCodes "Meals & Entertainment"
  | .OFFICE_SUPPLIES => strCodes "Office Supplies"
  | .TELECOMMUNICATIONS => strCodes "Telecommunications"
  | .MAINTENANCE => strCodes "Maintenance & Repairs"
  | .TRAINING => strCodes "Training & Education"
  | .BANK_CHARGES => strCodes "Bank Charges"
  | .MISCELLANEOUS => strCodes "Miscellaneous"

/-- The keyword table `self.uae_categories`, in its insertion (definition)
order; exactly ten categories carry keyword sets. -/
def uaeCategories : List (ExpenseCategory × List String) :=
  [(.MEDICAL_SUPPLIES,
    ["syringe", "gloves", "mask", "bandage", "medicine", "pharmaceutical",
     "medical equipment", "stethoscope", "thermometer", "vaccine", "antibiotics"]),
   (.OFFICE_RENT,
    ["rent", "lease", "property", "office space", "building", "premises",
     "tenancy", "rental agreement"]),
   (.UTILITIES,
    ["electricity", "water", "internet", "telephone", "wifi", "etisalat", "du",
     "dewa", "addc", "sewa", "fewa", "power", "gas"]),
   (.EQUIPMENT,
    ["equipment", "machine", "computer", "printer", "medical device",
     "furniture", "software", "hardware", "installation"]),
   (.INSURANCE,
    ["insurance", "takaful", "medical insurance", "liability", "coverage",
     "premium", "policy"]),
   (.LICENSES,
    ["license", "permit", "dha", "doh", "mohap", "trade license",
     "professional license", "registration", "certification"]),
   (.PROFESSIONAL_FEES,
    ["consultation", "audit", "legal", "accounting", "ca fees",
     "advisory", "professional services", "consultancy"]),
   (.MARKETING,
    ["advertisement", "marketing", "social media", "website",
     "promotion", "branding", "digital marketing", "seo"]),
   (.TRANSPORTATION,
    ["taxi", "uber", "careem", "fuel", "parking", "salik",
     "transport", "delivery", "logistics", "petrol"]),
   (.MEALS,
    ["restaurant", "food", "lunch", "dinner", "catering",
     "coffee", "meal", "refreshments", "hospitality"])]

/-- Keyword score of one category against the lowercased text: each keyword
found as a substring contributes its token count. -/
def keywordScore (kws : List String) (tl : List Nat) : Nat :=
  kws.foldl
    (fun s kw =>
      if containsSub tl (strCodes kw) then s + (splitWs (strCodes kw)).length else s)
    0

/-- The `category_scores` dictionary built by `_categorize_expense`:
categories with a positive score, in definition order. -/
def categoryScores (tl : List Nat) : List (ExpenseCategory × Nat) :=
  uaeCategories.filterMap
    (fun p =>
      let s := keywordScore p.2 tl
      if 0 < s then some (p.1, s) else none)

/-- Python `max(d, key=d.get)`: the first key, in insertion order, that
attains the maximal score. -/
def firstMaxBy (h : ExpenseCategory × Nat) (t : List (ExpenseCategory × Nat)) :
    ExpenseCategory × Nat :=
  t.foldl (fun best p => if best.2 < p.2 then p else best) h

/-- `_categorize_expense`: best-scoring category's display value, the
Miscellaneous default when every score is zero. -/
def categorize_expense (text : List Nat) : List Nat :=
  match categoryScores (strLower text) with
  | [] => catValue .MISCELLANEOUS
  | h :: t => catValue (firstMaxBy h t).1

/-- Line filter of `_generate_description`: keep stripped non-empty lines
longer than ten characters that show neither a large number nor a
date/total/vat/trn label. -/
def descLineOk (l : List Nat) : Bool :=
  10 < l.length && (reSearch bigNumPat l).isNone && (reSearch labelPat l).isNone

/-- `_generate_description`: up to three qualifying lines of the first ten,
joined with a separator; a fixed fallback otherwise. -/
def generate_description (text : List Nat) : List Nat :=
  let ls := ((splitOnC 10 text).map pyStrip).filter (fun l => !l.isEmpty)
  let parts := (ls.take 10).filter descLineOk
  if parts.isEmpty then strCodes "Invoice processing"
  else List.intercalate (strCodes " | ") (parts.take 3)

/-- One parsed `{description, quantity, amount}` line item. -/
structure LineItem where
  description : List Nat
  quantity : ℚ
  amount : ℚ
deriving DecidableEq, Repr

/-- `_extract_line_items`: per physical line, match the item shape on the
stripped line, require a description longer than two characters, parse the
two figures, and cap the list at ten items. -/
def extract_line_items (text : List Nat) : List LineItem :=
  (((splitOnC 10 text).filterMap itemOf).take 10 : List LineItem)
where
  itemOf (line : List Nat) : Option LineItem :=
    match reSearch lineItemPat (pyStrip line) with
    | some r =>
        let g1 := (groupOf 1 r).getD []
        if 2 < g1.length then
          match parseDec ((groupOf 2 r).getD []),
                parseDec (dropCommas ((groupOf 3 r).getD [])) with
          | some q, some a => some ⟨pyStrip g1, q, a⟩
          | _, _ => none
        else none
    | none => none

/-- The validation findings `_validate_data` can emit; the source's message
strings are abstracted to finding codes (the VAT message interpolates the
amounts, which no claim reads). -/
inductive Finding where
  | noValidAmount
  | vatMismatch
  | vendorUnidentified
  | invoiceNumberMissing
  | futureDate
  | invalidDateFormat
deriving DecidableEq, Repr

/-- The `InvoiceData` record of the source.  Wall-clock `processing_time`
and the debug `extracted_fields` dictionary are outside the model. -/
structure InvoiceData where
  raw_text : List Nat := []
  invoice_number : List Nat := []
  amount : ℚ := 0
  subtotal : ℚ := 0
  vat_amount : ℚ := 0
  vat_rate : ℚ := 5
  date : List Nat := []
  due_date : List Nat := []
  vendor_name : List Nat := []
  vendor_trn : List Nat := []
  vendor_address : List Nat := []
  vendor_phone : List Nat := []
  customer_details : List Nat := []
  category : List Nat := catValue .MISCELLANEOUS
  description : List Nat := []
  line_items : List LineItem := []
  currency : List Nat := strCodes "AED"
  confidence : ℚ := 0
  needs_review : Bool := true
  validation_errors : List Finding := []
deriving DecidableEq, Repr

/-- `_validate_data`, with `datetime.now()` passed as `today`: the findings
appended by the five checks, in source order. -/
def validate_data (today : PyDate) (d : InvoiceData) : List Finding :=
  (if d.amount ≤ 0 then [Finding.noValidAmount] else [])
    ++ (if 0 < d.vat_amount ∧ 0 < d.subtotal ∧
           ¬ |d.vat_amount - d.subtotal * (5 / 100)| ≤ 1 then
          [Finding.vatMismatch]
        else [])
    ++ (if d.vendor_name = unknownVendor then [Finding.vendorUnidentified] else [])
    ++ (if d.invoice_number = [] then [Finding.invoiceNumberMissing] else [])
    ++ (match parseYMD d.date with
        | some dt => if dateAfter dt today then [Finding.futureDate] else []
        | none => [Finding.invalidDateFormat])

/-- The date-extraction signal of `_calculate_confidence`: the weight is
awarded exactly when the stored date string differs from today's formatted
date (`data.date != datetime.now().strftime("%Y-%m-%d")`). -/
def dateSignal (today : PyDate) (d : InvoiceData) : Bool :=
  decide (d.date ≠ fmtDate today)

/-- The `score += weight if condition` step of `_calculate_confidence`. -/
def addIf (c : Prop) [Decidable c] (w s : ℚ) : ℚ := if c then s + w else s

/-- `_calculate_confidence`, with `datetime.now()` passed as `today`:
weighted presence/consistency signals, a per-finding penalty, and the
clamp to `[0, 1]`. -/
def calculate_confidence (today : PyDate) (d : InvoiceData) : ℚ :=
  let s1 := addIf (0 < d.amount) (25 / 100) 0
  let s2 := addIf (d.vendor_name ≠ unknownVendor) (20 / 100) s1
  let s3 := addIf (d.invoice_number ≠ []) (15 / 100) s2
  let s4 := addIf (dateSignal today d = true) (10 / 100) s3
  let s5 :=
    addIf (0 < d.vat_amount ∧ 0 < d.subtotal ∧
      |d.vat_amount - d.subtotal * (5 / 100)| ≤ 1) (10 / 100) s4
  let s6 := addIf (d.category ≠ catValue .MISCELLANEOUS) (10 / 100) s5
  let bonus : ℚ :=
    ((if d.vendor_trn ≠ [] then 1 else 0) + (if d.vendor_phone ≠ [] then 1 else 0)
      + (if d.due_date ≠ [] then 1 else 0) : ℚ) / 3 * (10 / 100)
  let s7 := s6 + bonus
  let s8 :=
    if d.validation_errors ≠ [] then
      s7 - (d.validation_errors.length : ℚ) * (5 / 100)
    else s7
  max 0 (min 1 s8)

/-- The field-extraction phase of `extract_structured_data`: the record as
populated by the individual extractors, before validation and scoring. -/
def extractBase (dparse : List Nat → Option PyDate) (today : PyDate)
    (ocr_text : List Nat) : InvoiceData :=
  { raw_text := ocr_text
    amount := extract_amount ocr_text
    subtotal := extract_subtotal ocr_text
    vat_amount := extract_vat ocr_text
    invoice_number := extract_invoice_number ocr_text
    date := extract_date dparse today ocr_text
    due_date := extract_due_date dparse ocr_text
    vendor_name := extract_vendor_name ocr_text
    vendor_trn := extract_trn ocr_text
    vendor_phone := extract_phone ocr_text
    vendor_address := extract_address ocr_text
    category := categorize_expense ocr_text
    description := generate_description ocr_text
    line_items := extract_line_items ocr_text }

/-- `extract_structured_data`: the full extraction pipeline of
`AdvancedInvoiceParser`, with the clock and the external date parser as
parameters — extract all fields, validate, score, and derive the review
flag. -/
def extract_structured_data (dparse : List Nat → Option PyDate) (today : PyDate)
    (ocr_text : List Nat) : InvoiceData :=
  let base := extractBase dparse today ocr_text
  let errs := validate_data today base
  let conf := calculate_confidence today { base with validation_errors := errs }
  { base with
      validation_errors := errs
      confidence := conf
      needs_review := decide (conf < 75 / 100) }

/-- Split at every occurrence of any of the characters in `seps`. -/
def splitOnAny (seps : List Nat) (s : List Nat) : List (List Nat) :=
  match s with
  | [] => [[]]
  | a :: t =>
      let r := splitOnAny seps t
      if seps.contains a then [] :: r
      else
        match r with
        | [] => [[a]]
        | h :: rt => (a :: h) :: rt

/-- Concrete day-first date parser used to instantiate the external
`dateparser` parameter in witnesses and counterexamples: `d/m/y` with `/`,
`-` or `.` separators, two-digit years in the 2000s, and calendar
validation.  It stands for the external library, which is not part of this
repository; no theorem depends on its internals. -/
def dparse0 (s : List Nat) : Option PyDate :=
  match splitOnAny [47, 45, 46] s with
  | [ds, ms, ys] =>
      if ds ≠ [] ∧ ds.all isDigitC ∧ ms ≠ [] ∧ ms.all isDigitC ∧
         ys ≠ [] ∧ ys.all isDigitC then
        let d := natOfDigits ds
        let m := natOfDigits ms
        let y0 := natOfDigits ys
        let y := if y0 < 100 then y0 + 2000 else y0
        if 1 ≤ y ∧ y ≤ 9999 ∧ 1 ≤ m ∧ m ≤ 12 ∧ 1 ≤ d ∧ d ≤ daysInMonth y m then
          some ⟨y, m, d⟩
        else none
      else none
  | _ => none

/-- Fixed calendar day used by concrete witnesses. -/
def today0 : PyDate := ⟨2026, 10, 12⟩

/-- UTF-8 encoding of a code-point sequence, Python `str.encode()`. -/
def utf8Bytes : List Nat → List Nat
  | [] => []
  | c :: cs =>
      (if c < 128 then [c]
       else if c < 2048 then [192 + c / 64, 128 + c % 64]
       else if c < 65536 then [224 + c / 4096, 128 + c / 64 % 64, 128 + c % 64]
       else [240 + c / 262144, 128 + c / 4096 % 64, 128 + c / 64 % 64, 128 + c % 64])
        ++ utf8Bytes cs

/-- The MD5 sine table `K`, `floor(abs(sin(i + 1)) * 2^32)`. -/
def md5K : List Nat :=
  [3614090360, 3905402710, 606105819, 3250441966,
   4118548399, 1200080426, 2821735955, 4249261313,
   1770035416, 2336552879, 4294925233, 2304563134,
   1804603682, 4254626195, 2792965006, 1236535329,
   4129170786, 3225465664, 643717713, 3921069994,
   3593408605, 38016083, 3634488961, 3889429448,
   568446438, 3275163606, 4107603335, 1163531501,
   2850285829, 4243563512, 1735328473, 2368359562,
   4294588738, 2272392833, 1839030562, 4259657740,
   2763975236, 1272893353, 4139469664, 3200236656,
   681279174, 3936430074, 3572445317, 76029189,
   3654602809, 3873151461, 530742520, 3299628645,
   4096336452, 1126891415, 2878612391, 4237533241,
   1700485571, 2399980690, 4293915773, 2240044497,
   1873313359, 4264355552, 2734768916, 1309151649,
   4149444226, 3174756917, 718787259, 3951481745]

/-- The MD5 per-round shift amounts. -/
def md5S : List Nat :=
  [7, 12, 17, 22, 7, 12, 17, 22, 7, 12, 17, 22, 7, 12, 17, 22,
   5, 9, 14, 20, 5, 9, 14, 20, 5, 9, 14, 20, 5, 9, 14, 20,
   4, 11, 16, 23, 4, 11, 16, 23, 4, 11, 16, 23, 4, 11, 16, 23,
   6, 10, 15, 21, 6, 10, 15, 21, 6, 10, 15, 21, 6, 10, 15, 21]

/-- 32-bit left rotation over `Nat` with explicit reduction mod `2^32`. -/
def rotl32 (x c : Nat) : Nat :=
  (x * 2 ^ c + x / 2 ^ (32 - c)) % 2 ^ 32

/-- Bitwise complement within 32 bits. -/
def not32 (x : Nat) : Nat := 4294967295 - x % 2 ^ 32

/-- MD5 message padding: a `0x80` byte, zeros to 56 mod 64, then the bit
length in 8 little-endian bytes. -/
def md5Pad (msg : List Nat) : List Nat :=
  let padLen := (55 + 64 - msg.length % 64) % 64 + 1
  let bitLen := 8 * msg.length
  msg ++ (128 :: List.replicate (padLen - 1) 0)
    ++ (List.range 8).map (fun i => bitLen / 2 ^ (8 * i) % 256)

/-- Little-endian 32-bit words of a 64-byte block. -/
def md5Words (block : List Nat) : List Nat :=
  (List.range 16).map (fun i =>
    block.getD (4 * i) 0 + 256 * block.getD (4 * i + 1) 0
      + 65536 * block.getD (4 * i + 2) 0 + 16777216 * block.getD (4 * i + 3) 0)

/-- One MD5 round on the state `(A, B, C, D)` with message words `m`. -/
def md5Round (m : List Nat) (st : Nat × Nat × Nat × Nat) (i : Nat) :
    Nat × Nat × Nat × Nat :=
  let (a, b, c, d) := st
  let f :=
    if i < 16 then b.land c |>.lor ((not32 b).land d)
    else if i < 32 then d.land b |>.lor ((not32 d).land c)
    else if i < 48 then b.xor c |>.xor d
    else c.xor (b.lor (not32 d))
  let g :=
    if i < 16 then i
    else if i < 32 then (5 * i + 1) % 16
    else if i < 48 then (3 * i + 5) % 16
    else 7 * i % 16
  let f2 := (f + a + md5K.getD i 0 + m.getD g 0) % 2 ^ 32
  (d, (b + rotl32 f2 (md5S.getD i 0)) % 2 ^ 32, b, c)

/-- Process the 64-byte blocks of a padded message. -/
def md5Blocks (st : Nat × Nat × Nat × Nat) (bytes : List Nat) : Nat × Nat × Nat × Nat :=
  match _h : bytes.length with
  | 0 => st
  | _ + 1 =>
      let block := bytes.take 64
      let (a0, b0, c0, d0) := st
      let (a, b, c, d) := (List.range 64).foldl (md5Round (md5Words block)) st
      md5Blocks ((a0 + a) % 2 ^ 32, (b0 + b) % 2 ^ 32, (c0 + c) % 2 ^ 32,
                 (d0 + d) % 2 ^ 32) (bytes.drop 64)
termination_by bytes.length
decreasing_by
  simp only [List.length_drop]
  omega

/-- Lowercase hex digit character of a value below 16. -/
def hexDigit (n : Nat) : Nat := if n < 10 then 48 + n else 87 + n

/-- Little-endian hex character codes of one 32-bit state word. -/
def hexWord (x : Nat) : List Nat :=
  (List.range 4).map (fun i => x / 2 ^ (8 * i) % 256)
    |>.flatMap (fun b => [hexDigit (b / 16), hexDigit (b % 16)])

/-- `hashlib.md5(bytes).hexdigest()` as a list of hex character codes. -/
def md5hex (bytes : List Nat) : List Nat :=
  let (a, b, c, d) :=
    md5Blocks (1732584193, 4023233417, 2562383102, 271733878) (md5Pad bytes)
  hexWord a ++ hexWord b ++ hexWord c ++ hexWord d

/-- Model of the Python f-string rendering `f"{x}"` of a float with a short
decimal expansion: sign, integer part, a dot, and the minimal number of
decimals, at least one (`250.0`, `99.99`).  Every amount the code produces
parses from a decimal capture, so the fallback branch is unreachable; the
fingerprint results below use this function only congruently. -/
def pyFloatStr (q : ℚ) : List Nat :=
  let sign : List Nat := if q < 0 then [45] else []
  let a := |q|
  match (List.range 33).find? (fun k => (a * 10 ^ k).den == 1) with
  | some k =>
      let n := (a * 10 ^ k).num.toNat
      if k == 0 then sign ++ natDigits n ++ [46, 48]
      else sign ++ natDigits (n / 10 ^ k) ++ [46] ++ padZeros k (natDigits (n % 10 ^ k))
  | none => sign ++ natDigits q.num.natAbs ++ [47] ++ natDigits q.den

/-- The fingerprint computed by `DatabaseManager.save_invoice`:
`hashlib.md5(f"{vendor_name}{amount}{date}".encode()).hexdigest()`.  It
reads only the vendor name, the amount and the date of the record — never
the raw text. -/
def invoiceHash (d : InvoiceData) : List Nat :=
  md5hex (utf8Bytes (d.vendor_name ++ pyFloatStr d.amount ++ d.date))

/-- One row of the sqlite `invoices` table (the columns the claims read). -/
structure InvoiceRow where
  user_id : List Nat
  invoice_hash : List Nat
  data : InvoiceData
deriving DecidableEq, Repr

/-- `DatabaseManager.save_invoice` on the `invoices` table, whose
`invoice_hash` column is declared `UNIQUE` by `init_database`: the
`INSERT OR REPLACE` statement deletes every row conflicting on the hash
and appends the new row, and the function returns `True` (its only other
outcome, `False`, reports a database exception — there is no
duplicate-specific outcome in the source). -/
def save_invoice (db : List InvoiceRow) (user : List Nat) (d : InvoiceData) :
    Bool × List InvoiceRow :=
  let h := invoiceHash d
  (true, db.filter (fun row => !(row.invoice_hash == h)) ++ [⟨user, h, d⟩])

/-- Modelled from the spec: the repository contains no reconciliation code
(the `invoices` table of `src/database.py` merely declares the `status`
and `payment_date` columns), so the `ReconciliationMatcher` of section 4.6
is modelled from the specification text.  An unpaid invoice record as read
by `reconcile`. -/
structure RInvoice where
  vendor_name : List Nat
  amount : ℚ
  status : List Nat := strCodes "unpaid"
  payment_date : List Nat := []
deriving DecidableEq, Repr

/-- Modelled from the spec: a bank-transaction row as read by `reconcile`
(section 3, BankTransactionRecord; amount signed, negative = outgoing). -/
structure BankTxn where
  date : List Nat
  description : List Nat
  amount : ℚ
  reconciled : Bool := false
deriving DecidableEq, Repr

/-- Modelled from the spec: the match test of section 4.6 — the
transaction's absolute amount equals the invoice amount exactly and the
invoice's vendor name is, case-insensitively, a substring of the
transaction description. -/
def txnMatches (inv : RInvoice) (t : BankTxn) : Bool :=
  decide (|t.amount| = inv.amount) &&
    containsSub (strLower t.description) (strLower inv.vendor_name)

/-- First invoice of the working set matching the transaction, together
with the remaining candidates (the explicit remove-after-match working
set of section 4.6). -/
def findMatch (t : BankTxn) : List RInvoice → Option (RInvoice × List RInvoice)
  | [] => none
  | inv :: rest =>
      if txnMatches inv t then some (inv, rest)
      else
        match findMatch t rest with
        | some (m, others) => some (m, inv :: others)
        | none => none

/-- Modelled from the spec: `reconcile(unpaidInvoices, unreconciledTransactions)`
of section 4.6.  Each unreconciled outgoing (negative) transaction scans
the remaining unpaid invoices in stable order; on the first match the pair
is recorded, the transaction is marked reconciled, and the invoice leaves
the working set.  Returns the matched pairs (original invoice with its
transaction), the remaining unpaid invoices, and the processed transaction
list. -/
def reconcile (invs : List RInvoice) :
    List BankTxn → List (RInvoice × BankTxn) × List RInvoice × List BankTxn
  | [] => ([], invs, [])
  | t :: ts =>
      if t.amount < 0 ∧ t.reconciled = false then
        match findMatch t invs with
        | some (inv, rest) =>
            let (ps, ri, rt) := reconcile rest ts
            ((inv, t) :: ps, ri, { t with reconciled := true } :: rt)
        | none =>
            let (ps, ri, rt) := reconcile invs ts
            (ps, ri, t :: rt)
      else
        let (ps, ri, rt) := reconcile invs ts
        (ps, ri, t :: rt)

/-- Modelled from the spec: the paid records written back by the matcher —
status `paid` and `paymentDate` the transaction date (section 4.6). -/
def paidInvoices (pairs : List (RInvoice × BankTxn)) : List RInvoice :=
  pairs.map (fun p =>
    { p.1 with status := strCodes "paid", payment_date := p.2.date })

/-- Modelled from the spec: the `MatchResult` count is the number of
matched pairs (section 4.6). -/
def matchCount (pairs : List (RInvoice × BankTxn)) : Nat := pairs.length

/-! Helper lemmas. -/

theorem foldl_max_init_le (l : List ℚ) (a : ℚ) : a ≤ l.foldl max a := by
  induction l generalizing a with
  | nil => exact le_refl a
  | cons b t ih => exact le_trans (le_max_left a b) (ih (max a b))

theorem foldl_max_le_of_mem (l : List ℚ) (a x : ℚ) (hx : x ∈ l) :
    x ≤ l.foldl max a := by
  induction l generalizing a with
  | nil => cases hx
  | cons b t ih =>
      rcases List.mem_cons.mp hx with h | h
      · subst h
        exact le_trans (le_max_right a x) (foldl_max_init_le t (max a x))
      · exact ih (max a b) h

theorem foldl_max_mem (l : List ℚ) (a : ℚ) :
    l.foldl max a = a ∨ l.foldl max a ∈ l := by
  induction l generalizing a with
  | nil => exact Or.inl rfl
  | cons b t ih =>
      rcases ih (max a b) with h | h
      · rcases max_cases a b with ⟨he, _⟩ | ⟨he, _⟩
        · exact Or.inl (by rw [List.foldl_cons, h, he])
        · exact Or.inr (by rw [List.foldl_cons, h, he]; exact List.mem_cons_self b t)
      · exact Or.inr (List.mem_cons_of_mem b h)

theorem collectAmounts_eq (l : List (List Nat)) :
    collectAmounts l =
      (l.filterMap (fun m => parseDec (dropCommas m))).filter
        (fun a => decide ((1 : ℚ) / 100 ≤ a ∧ a ≤ 1000000)) := by
  induction l with
  | nil => rfl
  | cons m t ih =>
      simp only [collectAmounts, List.filterMap_cons]
      cases parseDec (dropCommas m) with
      | none => exact ih
      | some a =>
          by_cases h : (1 : ℚ) / 100 ≤ a ∧ a ≤ 1000000
          · simp [h, List.filter_cons, ih]
          · simp [h, List.filter_cons, ih]

theorem collectAmounts_bound (l : List (List Nat)) (x : ℚ)
    (hx : x ∈ collectAmounts l) : (1 : ℚ) / 100 ≤ x ∧ x ≤ 1000000 := by
  rw [collectAmounts_eq] at hx
  exact of_decide_eq_true (List.mem_filter.mp hx).2

/-- The in-bound candidate list of the amount extractor. -/
def amountCands (text : List Nat) : List ℚ := collectAmounts (amountMatchList text)

/-- C1: for every raw OCR text, the amount field of the extracted record is
the maximum of the candidate values — the parses of the captures of the
five ordered amount rules that lie within the sane bound
`0.01 ≤ x ≤ 1000000` — and is `0.0` when no candidate lies in bound. -/
theorem C1_amount_is_bounded_max (dparse : List Nat → Option PyDate)
    (today : PyDate) (text : List Nat) :
    amountCands text =
      ((amountMatchList text).filterMap (fun m => parseDec (dropCommas m))).filter
        (fun a => decide ((1 : ℚ) / 100 ≤ a ∧ a ≤ 1000000)) ∧
    (∀ x ∈ amountCands text, (1 : ℚ) / 100 ≤ x ∧ x ≤ 1000000) ∧
    (∀ x ∈ amountCands text,
      x ≤ (extract_structured_data dparse today text).amount) ∧
    (amountCands text = [] → (extract_structured_data dparse today text).amount = 0) ∧
    (amountCands text ≠ [] →
      (extract_structured_data dparse today text).amount ∈ amountCands text) := by
  have hamt : (extract_structured_data dparse today text).amount = extract_amount text := rfl
  refine ⟨collectAmounts_eq _, fun x hx => collectAmounts_bound _ x hx, ?_, ?_, ?_⟩
  · intro x hx
    rw [hamt]
    unfold extract_amount
    rcases h : collectAmounts (amountMatchList text) with _ | ⟨a, rest⟩
    · rw [amountCands, h] at hx; cases hx
    · rw [amountCands, h] at hx
      rcases List.mem_cons.mp hx with he | hm
      · subst he; exact foldl_max_init_le rest x
      · exact foldl_max_le_of_mem rest a x hm
  · intro hc
    rw [hamt]
    unfold extract_amount
    rw [amountCands] at hc
    rw [hc]
  · intro hc
    rw [hamt]
    unfold extract_amount
    rcases h : collectAmounts (amountMatchList text) with _ | ⟨a, rest⟩
    · exact absurd (by rw [amountCands, h]) hc
    · rw [amountCands, h]
      show List.foldl max a rest ∈ a :: rest
      rcases foldl_max_mem rest a with he | hm
      · rw [he]; exact List.mem_cons_self a rest
      · exact List.mem_cons_of_mem a hm

/-- Witness for C1 at a concrete two-figure text: `3.00` is a candidate and
is bounded by the extracted amount. -/
theorem C1_amount_is_bounded_max_witness :
    (3 : ℚ) ∈ amountCands (strCodes "total: 9.50 aed 3.00") ∧
    (3 : ℚ) ≤ (extract_structured_data dparse0 today0
        (strCodes "total: 9.50 aed 3.00")).amount := by
  refine ⟨by decide, ?_⟩
  exact (C1_amount_is_bounded_max dparse0 today0
    (strCodes "total: 9.50 aed 3.00")).2.2.1 3 (by decide)

theorem confidence_projections (dparse : List Nat → Option PyDate) (today : PyDate)
    (text : List Nat) :
    (extract_structured_data dparse today text).needs_review =
      decide ((extract_structured_data dparse today text).confidence < 75 / 100) :=
  rfl

theorem clamp01_nonneg (s : ℚ) : 0 ≤ max 0 (min 1 s) := le_max_left 0 _

theorem clamp01_le_one (s : ℚ) : max 0 (min 1 s) ≤ 1 :=
  max_le (by norm_num) (min_le_left 1 s)

theorem clamp01_mono {a b : ℚ} (h : a ≤ b) : max 0 (min 1 a) ≤ max 0 (min 1 b) :=
  max_le_max le_rfl (min_le_min le_rfl h)

theorem calculate_confidence_bounds (today : PyDate) (d : InvoiceData) :
    0 ≤ calculate_confidence today d ∧ calculate_confidence today d ≤ 1 := by
  unfold calculate_confidence
  exact ⟨clamp01_nonneg _, clamp01_le_one _⟩

/-- C3: for every raw text, the extracted record flags review exactly when
its confidence is below the 0.75 threshold, and the confidence is clamped
into the closed interval `[0, 1]`. -/
theorem C3_review_flag_and_clamp (dparse : List Nat → Option PyDate)
    (today : PyDate) (text : List Nat) :
    ((extract_structured_data dparse today text).needs_review = true ↔
      (extract_structured_data dparse today text).confidence < 75 / 100) ∧
    0 ≤ (extract_structured_data dparse today text).confidence ∧
    (extract_structured_data dparse today text).confidence ≤ 1 := by
  refine ⟨?_, ?_⟩
  · rw [confidence_projections]
    exact decide_eq_true_iff
  · have h : (extract_structured_data dparse today text).confidence =
        calculate_confidence today
          { extractBase dparse today text with
            validation_errors := validate_data today (extractBase dparse today text) } := rfl
    rw [h]
    exact calculate_confidence_bounds today _

/-- The pre-clamp confidence score as one flat sum of the weighted signals
minus the per-finding penalty. -/
def confTerms (today : PyDate) (d : InvoiceData) : ℚ :=
  (if 0 < d.amount then (25 : ℚ) / 100 else 0)
    + (if d.vendor_name ≠ unknownVendor then (20 : ℚ) / 100 else 0)
    + (if d.invoice_number ≠ [] then (15 : ℚ) / 100 else 0)
    + (if dateSignal today d then (10 : ℚ) / 100 else 0)
    + (if 0 < d.vat_amount ∧ 0 < d.subtotal ∧
          |d.vat_amount - d.subtotal * (5 / 100)| ≤ 1 then (10 : ℚ) / 100 else 0)
    + (if d.category ≠ catValue .MISCELLANEOUS then (10 : ℚ) / 100 else 0)
    + ((if d.vendor_trn ≠ [] then (1 : ℚ) else 0)
        + (if d.vendor_phone ≠ [] then (1 : ℚ) else 0)
        + (if d.due_date ≠ [] then (1 : ℚ) else 0)) / 3 * (10 / 100)
    - (d.validation_errors.length : ℚ) * (5 / 100)

theorem addIf_eq (c : Prop) [Decidable c] (w s : ℚ) :
    addIf c w s = s + (if c then w else 0) := by
  unfold addIf
  split_ifs <;> simp

theorem ite_sub_penalty (l : List Finding) (x : ℚ) :
    (if l ≠ [] then x - (l.length : ℚ) * (5 / 100) else x) =
      x - (l.length : ℚ) * (5 / 100) := by
  by_cases h : l = [] <;> simp [h]

theorem confidence_closed_form (today : PyDate) (d : InvoiceData) :
    calculate_confidence today d = max 0 (min 1 (confTerms today d)) := by
  simp only [calculate_confidence, confTerms, addIf_eq, ite_sub_penalty]
  ring_nf

/-- Confidence of a field record computed the way the pipeline does it:
first the validation findings, then the score read off the record carrying
those findings. -/
def scoreOf (today : PyDate) (d : InvoiceData) : ℚ :=
  calculate_confidence today { d with validation_errors := validate_data today d }

/-- C4: filling in a previously missing required field — a positive amount
for a zero one, an identified vendor for the sentinel, a non-empty invoice
number for the empty string — never decreases the confidence computed via
validation findings and scoring, all other fields unchanged. -/
theorem C4_required_field_monotone (today : PyDate) (d : InvoiceData) :
    (∀ a : ℚ, 0 < a →
      scoreOf today { d with amount := 0 } ≤ scoreOf today { d with amount := a }) ∧
    (∀ v : List Nat, v ≠ unknownVendor →
      scoreOf today { d with vendor_name := unknownVendor } ≤
        scoreOf today { d with vendor_name := v }) ∧
    (∀ n : List Nat, n ≠ [] →
      scoreOf today { d with invoice_number := [] } ≤
        scoreOf today { d with invoice_number := n }) := by
  refine ⟨?_, ?_, ?_⟩
  · intro a ha
    have hv : validate_data today ({ d with amount := 0 }) =
        Finding.noValidAmount :: validate_data today ({ d with amount := a }) := by
      simp [validate_data, ha.not_le]
    rw [scoreOf, scoreOf, confidence_closed_form, confidence_closed_form]
    apply clamp01_mono
    simp only [confTerms, dateSignal, hv, List.length_cons]
    simp only [lt_irrefl, if_false, ha, if_true, Nat.cast_add, Nat.cast_one]
    linarith
  · intro v hvne
    have hv : (validate_data today ({ d with vendor_name := unknownVendor })).length =
        (validate_data today ({ d with vendor_name := v })).length + 1 := by
      simp only [validate_data, List.length_append]
      simp [hvne]
      omega
    rw [scoreOf, scoreOf, confidence_closed_form, confidence_closed_form]
    apply clamp01_mono
    simp only [confTerms, dateSignal, hv]
    simp only [ne_eq, not_true_eq_false, if_false, hvne, not_false_eq_true, if_true,
      Nat.cast_add, Nat.cast_one]
    linarith
  · intro n hn
    have hv : (validate_data today ({ d with invoice_number := [] })).length =
        (validate_data today ({ d with invoice_number := n })).length + 1 := by
      simp only [validate_data, List.length_append]
      simp [hn]
      omega
    rw [scoreOf, scoreOf, confidence_closed_form, confidence_closed_form]
    apply clamp01_mono
    simp only [confTerms, dateSignal, hv]
    simp only [ne_eq, not_true_eq_false, if_false, hn, not_false_eq_true, if_true,
      Nat.cast_add, Nat.cast_one]
    linarith

/-- Witness for C4 at a concrete record and field values. -/
theorem C4_required_field_monotone_witness :
    (0 : ℚ) < 5 ∧
    scoreOf today0 { ({} : InvoiceData) with amount := 0 } ≤
      scoreOf today0 { ({} : InvoiceData) with amount := 5 } ∧
    strCodes "Acme" ≠ unknownVendor ∧
    scoreOf today0 { ({} : InvoiceData) with vendor_name := unknownVendor } ≤
      scoreOf today0 { ({} : InvoiceData) with vendor_name := strCodes "Acme" } ∧
    strCodes "ABC" ≠ ([] : List Nat) ∧
    scoreOf today0 { ({} : InvoiceData) with invoice_number := [] } ≤
      scoreOf today0 { ({} : InvoiceData) with invoice_number := strCodes "ABC" } :=
  ⟨by norm_num,
   (C4_required_field_monotone today0 {}).1 5 (by norm_num),
   by decide,
   (C4_required_field_monotone today0 {}).2.1 (strCodes "Acme") (by decide),
   by decide,
   (C4_required_field_monotone today0 {}).2.2 (strCodes "ABC") (by decide)⟩

theorem toLowerC_eq (n : Nat) :
    toLowerC n = if 65 ≤ n ∧ n ≤ 90 then n + 32 else n := by
  simp [toLowerC, isUpperC, Bool.and_eq_true, decide_eq_true_eq]

theorem toUpperC_eq (n : Nat) :
    toUpperC n = if 97 ≤ n ∧ n ≤ 122 then n - 32 else n := by
  simp [toUpperC, isLowerC, Bool.and_eq_true, decide_eq_true_eq]

theorem isAlphaC_iff (n : Nat) :
    isAlphaC n = true ↔ (65 ≤ n ∧ n ≤ 90) ∨ (97 ≤ n ∧ n ≤ 122) := by
  simp [isAlphaC, isUpperC, isLowerC, Bool.or_eq_true, Bool.and_eq_true,
    decide_eq_true_eq]

theorem char_case_eq {a b : Nat} (h : toLowerC a = toLowerC b) :
    isAlphaC a = isAlphaC b ∧ toUpperC a = toUpperC b := by
  rw [toLowerC_eq, toLowerC_eq] at h
  constructor
  · rw [Bool.eq_iff_iff, isAlphaC_iff, isAlphaC_iff]
    split_ifs at h <;> omega
  · rw [toUpperC_eq, toUpperC_eq]
    split_ifs at h ⊢ <;> omega

theorem toLowerC_id_of_not_alpha {c : Nat} (h : isAlphaC c = false) :
    toLowerC c = c := by
  rw [toLowerC_eq]
  split_ifs with hc
  · have ht : isAlphaC c = true := (isAlphaC_iff c).mpr (Or.inl hc)
    rw [h] at ht
    cases ht
  · rfl

theorem titleGo_case {s t : List Nat} (h : s.map toLowerC = t.map toLowerC) :
    ∀ prev, titleGo prev s = titleGo prev t := by
  induction s generalizing t with
  | nil =>
      cases t with
      | nil => intro _; rfl
      | cons d ds => simp at h
  | cons c cs ih =>
      cases t with
      | nil => simp at h
      | cons d ds =>
          simp only [List.map_cons, List.cons.injEq] at h
          obtain ⟨h1, h2⟩ := h
          intro prev
          obtain ⟨ha, hu⟩ := char_case_eq h1
          simp only [titleGo]
          rw [ha, ih h2 (isAlphaC d)]
          congr 1
          by_cases hal : isAlphaC d = true
          · rw [if_pos hal, if_pos hal]
            cases prev
            · simpa using hu
            · simpa using h1
          · have hf : isAlphaC d = false := Bool.eq_false_iff.mpr hal
            rw [if_neg hal, if_neg hal]
            calc c = toLowerC c := (toLowerC_id_of_not_alpha (ha.trans hf)).symm
              _ = toLowerC d := h1
              _ = d := toLowerC_id_of_not_alpha hf

theorem isAlphaC_toLowerC (c : Nat) : isAlphaC (toLowerC c) = isAlphaC c := by
  rw [Bool.eq_iff_iff, isAlphaC_iff, isAlphaC_iff, toLowerC_eq]
  split_ifs <;> omega

theorem isAlphaC_toUpperC (c : Nat) : isAlphaC (toUpperC c) = isAlphaC c := by
  rw [Bool.eq_iff_iff, isAlphaC_iff, isAlphaC_iff, toUpperC_eq]
  split_ifs <;> omega

theorem toLowerC_idem (c : Nat) : toLowerC (toLowerC c) = toLowerC c := by
  simp only [toLowerC_eq]
  split_ifs <;> omega

theorem toUpperC_idem (c : Nat) : toUpperC (toUpperC c) = toUpperC c := by
  simp only [toUpperC_eq]
  split_ifs <;> omega

theorem titleGo_idem (s : List Nat) :
    ∀ prev, titleGo prev (titleGo prev s) = titleGo prev s := by
  induction s with
  | nil => intro _; rfl
  | cons c cs ih =>
      intro prev
      by_cases hal : isAlphaC c = true
      · cases prev
        · simp [titleGo, hal, isAlphaC_toUpperC, toUpperC_idem, ih true]
        · simp [titleGo, hal, isAlphaC_toLowerC, toLowerC_idem, ih true]
      · have hf : isAlphaC c = false := Bool.eq_false_iff.mpr hal
        simp [titleGo, hf, ih false]

theorem pyTitle_canonical {s t : List Nat}
    (h : strLower (pyTitle s) = strLower (pyTitle t)) : pyTitle s = pyTitle t := by
  calc pyTitle s = titleGo false (pyTitle s) := (titleGo_idem s false).symm
    _ = titleGo false (pyTitle t) := titleGo_case h false
    _ = pyTitle t := titleGo_idem t false

theorem vendorFromPats_image (ps : List RE) (t : List Nat) :
    ∃ s, vendorFromPats ps t = pyTitle s := by
  induction ps with
  | nil => exact ⟨unknownVendor, rfl⟩
  | cons p ps ih =>
      simp only [vendorFromPats]
      cases reSearch p t with
      | none => exact ih
      | some r =>
          dsimp only
          by_cases hc : 3 ≤ (pyStrip ((groupOf 1 r).getD [])).length ∧
              (pyStrip ((groupOf 1 r).getD [])).length ≤ 50 ∧
              ((pyStrip ((groupOf 1 r).getD [])).all fun c => !isDigitC c) = true
          · exact ⟨pyStrip ((groupOf 1 r).getD []), by rw [if_pos hc]⟩
          · rw [if_neg hc]; exact ih

theorem vendor_in_title_image (text : List Nat) :
    ∃ s, extract_vendor_name text = pyTitle s := by
  unfold extract_vendor_name
  cases uaeVendors.find? (fun v => containsSub (strLower text) (strCodes v)) with
  | none => exact vendorFromPats_image vendorPats text
  | some v => exact ⟨strCodes v, rfl⟩

theorem vendor_case_canonical {t1 t2 : List Nat}
    (h : strLower (extract_vendor_name t1) = strLower (extract_vendor_name t2)) :
    extract_vendor_name t1 = extract_vendor_name t2 := by
  obtain ⟨s1, e1⟩ := vendor_in_title_image t1
  obtain ⟨s2, e2⟩ := vendor_in_title_image t2
  rw [e1, e2] at h ⊢
  exact pyTitle_canonical h

/-- C5: the stored fingerprint is a function of the vendor name, amount and
date alone — records agreeing on those three fields hash identically
whatever their raw texts — and two extractions whose vendor names agree up
to letter case (with equal extracted amount and date) produce the
identical fingerprint, because every vendor the extractor can return is
title-case canonical. -/
theorem C5_fingerprint_normalized :
    (∀ d1 d2 : InvoiceData, d1.vendor_name = d2.vendor_name →
      d1.amount = d2.amount → d1.date = d2.date → invoiceHash d1 = invoiceHash d2) ∧
    (∀ (dparse : List Nat → Option PyDate) (today : PyDate) (t1 t2 : List Nat),
      strLower (extract_vendor_name t1) = strLower (extract_vendor_name t2) →
      extract_amount t1 = extract_amount t2 →
      extract_date dparse today t1 = extract_date dparse today t2 →
      invoiceHash (extract_structured_data dparse today t1) =
        invoiceHash (extract_structured_data dparse today t2)) := by
  constructor
  · intro d1 d2 h1 h2 h3
    unfold invoiceHash
    rw [h1, h2, h3]
  · intro dparse today t1 t2 hv ha hd
    unfold invoiceHash
    have e1 : ∀ t, (extract_structured_data dparse today t).vendor_name =
        extract_vendor_name t := fun _ => rfl
    have e2 : ∀ t, (extract_structured_data dparse today t).amount =
        extract_amount t := fun _ => rfl
    have e3 : ∀ t, (extract_structured_data dparse today t).date =
        extract_date dparse today t := fun _ => rfl
    rw [e1, e1, e2, e2, e3, e3, vendor_case_canonical hv, ha, hd]

/-- Witness for C5 on two raw texts differing in vendor case and
whitespace noise. -/
theorem C5_fingerprint_normalized_witness :
    strLower (extract_vendor_name (strCodes "CARREFOUR mall")) =
      strLower (extract_vendor_name (strCodes "carrefour  mall")) ∧
    invoiceHash (extract_structured_data dparse0 today0 (strCodes "CARREFOUR mall")) =
      invoiceHash (extract_structured_data dparse0 today0 (strCodes "carrefour  mall")) :=
  ⟨by decide,
   C5_fingerprint_normalized.2 dparse0 today0 _ _ (by decide) (by decide) (by decide)⟩

/-- Counterexample to C6: in the text `Date: 12/10/2026` the date is
genuinely extracted (the rule loop returns it), yet because it equals
today's date the stored string matches today's formatted date and the
scorer's date signal is off — the genuinely-extracted date is
indistinguishable from the default, contradicting the claim that the
weight is awarded exactly on genuine extraction. -/
theorem C6_date_today_counterexample :
    extractDateAux dparse0 datePats (strCodes "Date: 12/10/2026") =
      some ⟨2026, 10, 12⟩ ∧
    (extract_structured_data dparse0 today0 (strCodes "Date: 12/10/2026")).date =
      fmtDate today0 ∧
    dateSignal today0
      (extract_structured_data dparse0 today0 (strCodes "Date: 12/10/2026")) = false :=
  ⟨by decide, by decide, by decide⟩

/-- C6 amended: when no date rule parses, the extracted date defaults to
today's formatted date; a genuinely extracted date is stored as formatted;
and the scorer awards the date weight exactly when the stored date string
differs from today's — so a genuinely extracted date equal to today is
treated like the default. -/
theorem C6_date_default_and_signal (dparse : List Nat → Option PyDate)
    (today : PyDate) (text : List Nat) :
    (extractDateAux dparse datePats text = none →
      (extract_structured_data dparse today text).date = fmtDate today) ∧
    (∀ dt : PyDate, extractDateAux dparse datePats text = some dt →
      (extract_structured_data dparse today text).date = fmtDate dt) ∧
    (dateSignal today (extract_structured_data dparse today text) = true ↔
      (extract_structured_data dparse today text).date ≠ fmtDate today) := by
  have hd : (extract_structured_data dparse today text).date =
      extract_date dparse today text := rfl
  refine ⟨?_, ?_, ?_⟩
  · intro h
    rw [hd]
    unfold extract_date
    rw [h]
  · intro dt h
    rw [hd]
    unfold extract_date
    rw [h]
  · rw [dateSignal]
    exact decide_eq_true_iff

/-- Witness for the amended C6 at a text whose date differs from today. -/
theorem C6_date_default_and_signal_witness :
    extractDateAux dparse0 datePats (strCodes "Date: 05/10/2026") =
      some ⟨2026, 10, 5⟩ ∧
    (extract_structured_data dparse0 today0 (strCodes "Date: 05/10/2026")).date =
      fmtDate ⟨2026, 10, 5⟩ :=
  ⟨by decide,
   (C6_date_default_and_signal dparse0 today0 (strCodes "Date: 05/10/2026")).2.1
     ⟨2026, 10, 5⟩ (by decide)⟩

/-- Category/score pairs of every category in definition order, before the
positive-score filter. -/
def allScores (tl : List Nat) : List (ExpenseCategory × Nat) :=
  uaeCategories.map (fun p => (p.1, keywordScore p.2 tl))

theorem firstMaxBy_init_le (t : List (ExpenseCategory × Nat))
    (h : ExpenseCategory × Nat) : h.2 ≤ (firstMaxBy h t).2 := by
  induction t generalizing h with
  | nil => exact le_refl _
  | cons p t ih =>
      show h.2 ≤ (firstMaxBy (if h.2 < p.2 then p else h) t).2
      by_cases hp : h.2 < p.2
      · rw [if_pos hp]
        exact le_trans (le_of_lt hp) (ih p)
      · rw [if_neg hp]
        exact ih h

theorem firstMaxBy_decomp (t : List (ExpenseCategory × Nat))
    (h : ExpenseCategory × Nat) :
    ∃ u1 u2, h :: t = u1 ++ firstMaxBy h t :: u2 ∧
      (∀ q ∈ u1, q.2 < (firstMaxBy h t).2) ∧
      (∀ q ∈ h :: t, q.2 ≤ (firstMaxBy h t).2) := by
  induction t generalizing h with
  | nil => exact ⟨[], [], rfl, by simp, by simp [firstMaxBy]⟩
  | cons p t ih =>
      have hstep : firstMaxBy h (p :: t) = firstMaxBy (if h.2 < p.2 then p else h) t := rfl
      by_cases hp : h.2 < p.2
      · obtain ⟨u1, u2, he, hlt, hle⟩ := ih p
        rw [if_pos hp] at hstep
        refine ⟨h :: u1, u2, ?_, ?_, ?_⟩
        · rw [hstep, List.cons_append, ← he]
        · intro q hq
          rw [hstep]
          rcases List.mem_cons.mp hq with rfl | hq
          · exact lt_of_lt_of_le hp (firstMaxBy_init_le t p)
          · exact hlt q hq
        · intro q hq
          rw [hstep]
          rcases List.mem_cons.mp hq with rfl | hq
          · exact le_trans (le_of_lt hp) (firstMaxBy_init_le t p)
          · exact hle q hq
      · obtain ⟨u1, u2, he, hlt, hle⟩ := ih h
        rw [if_neg hp] at hstep
        have hple : p.2 ≤ h.2 := le_of_not_lt hp
        cases u1 with
        | nil =>
            simp only [List.nil_append, List.cons.injEq] at he
            obtain ⟨hb, ht⟩ := he
            refine ⟨[], p :: t, ?_, by simp, ?_⟩
            · rw [hstep, List.nil_append, ← hb]
            · intro q hq
              rw [hstep, ← hb]
              rcases List.mem_cons.mp hq with rfl | hq
              · exact le_refl _
              · rcases List.mem_cons.mp hq with rfl | hq
                · exact hple
                · rw [hb]
                  exact hle q (List.mem_cons_of_mem h hq)
        | cons y u1 =>
            simp only [List.cons_append, List.cons.injEq] at he
            obtain ⟨hy, ht⟩ := he
            refine ⟨h :: p :: u1, u2, ?_, ?_, ?_⟩
            · rw [hstep]
              simp only [List.cons_append, List.cons.injEq, true_and]
              exact ht
            · have hhb : h.2 < (firstMaxBy h t).2 := by
                have := hlt y (List.mem_cons_self y u1)
                rw [← hy] at this
                exact this
              intro q hq
              rw [hstep]
              rcases List.mem_cons.mp hq with rfl | hq
              · exact hhb
              · rcases List.mem_cons.mp hq with rfl | hq
                · exact lt_of_le_of_lt hple hhb
                · exact hlt q (List.mem_cons_of_mem y hq)
            · intro q hq
              rw [hstep]
              rcases List.mem_cons.mp hq with rfl | hq
              · exact hle q (List.mem_cons_self q t)
              · rcases List.mem_cons.mp hq with rfl | hq
                · exact le_trans hple (hle h (List.mem_cons_self h t))
                · exact hle q (List.mem_cons_of_mem h hq)

theorem filterMap_scores (L : List (ExpenseCategory × List String)) (tl : List Nat) :
    (L.filterMap (fun p =>
      let s := keywordScore p.2 tl
      if 0 < s then some (p.1, s) else none)) =
    (L.map (fun p => (p.1, keywordScore p.2 tl))).filter (fun q => decide (0 < q.2)) := by
  induction L with
  | nil => rfl
  | cons x L ih =>
      simp only [List.filterMap_cons, List.map_cons, List.filter_cons]
      by_cases hs : 0 < keywordScore x.2 tl
      · simp only [hs, if_pos, decide_eq_true_eq, ih]
      · simp only [hs, if_neg, decide_eq_true_eq, ih]
        simp [hs]

theorem categoryScores_eq_filter (tl : List Nat) :
    categoryScores tl = (allScores tl).filter (fun q => decide (0 < q.2)) :=
  filterMap_scores uaeCategories tl

theorem filter_decomp (L : List (ExpenseCategory × Nat)) :
    ∀ (u1 u2 : List (ExpenseCategory × Nat)) (b : ExpenseCategory × Nat),
    L.filter (fun q => decide (0 < q.2)) = u1 ++ b :: u2 →
    (∀ q ∈ u1, q.2 < b.2) → 0 < b.2 →
    ∃ L1 L2, L = L1 ++ b :: L2 ∧ ∀ q ∈ L1, q.2 < b.2 := by
  induction L with
  | nil =>
      intro u1 u2 b he _ _
      exact absurd he.symm (by simp)
  | cons x L ih =>
      intro u1 u2 b he hlt hb
      by_cases hx : 0 < x.2
      · rw [List.filter_cons_of_pos (by simpa using hx)] at he
        cases u1 with
        | nil =>
            simp only [List.nil_append, List.cons.injEq] at he
            exact ⟨[], L, by rw [List.nil_append, he.1], by simp⟩
        | cons y u1 =>
            simp only [List.cons_append, List.cons.injEq] at he
            obtain ⟨hxy, hrest⟩ := he
            obtain ⟨L1, L2, hL, hL1⟩ :=
              ih u1 u2 b hrest (fun q hq => hlt q (List.mem_cons_of_mem y hq)) hb
            refine ⟨x :: L1, L2, by rw [List.cons_append, hL], ?_⟩
            intro q hq
            rcases List.mem_cons.mp hq with rfl | hq
            · rw [hxy]
              exact hlt y (List.mem_cons_self y u1)
            · exact hL1 q hq
      · rw [List.filter_cons_of_neg (by simpa using hx)] at he
        obtain ⟨L1, L2, hL, hL1⟩ := ih u1 u2 b he hlt hb
        refine ⟨x :: L1, L2, by rw [List.cons_append, hL], ?_⟩
        intro q hq
        rcases List.mem_cons.mp hq with rfl | hq
        · rw [Nat.eq_zero_of_not_pos hx]
          exact hb
        · exact hL1 q hq

theorem le_of_filter_le (L : List (ExpenseCategory × Nat)) (b : ExpenseCategory × Nat)
    (hle : ∀ q ∈ L.filter (fun q => decide (0 < q.2)), q.2 ≤ b.2) :
    ∀ q ∈ L, q.2 ≤ b.2 := by
  intro q hq
  by_cases hx : 0 < q.2
  · exact hle q (List.mem_filter.mpr ⟨hq, by simpa using hx⟩)
  · rw [Nat.eq_zero_of_not_pos hx]
    exact Nat.zero_le _

/-- C7: categorization is deterministic (a pure function of the text); when
every category's token-weighted keyword score is zero it returns the
Miscellaneous default; and whenever some score is positive it returns the
value of a positive, maximal-scoring category such that every category
earlier in definition order scores strictly less — so a strictly highest
scorer is returned and ties resolve to the definition-order-first
candidate. -/
theorem C7_categorize_first_max (text : List Nat) :
    categorize_expense text = categorize_expense text ∧
    ((∀ q ∈ allScores (strLower text), q.2 = 0) →
      categorize_expense text = catValue .MISCELLANEOUS) ∧
    (∀ q0 ∈ allScores (strLower text), 0 < q0.2 →
      ∃ L1 b L2, allScores (strLower text) = L1 ++ b :: L2 ∧
        categorize_expense text = catValue b.1 ∧ 0 < b.2 ∧
        (∀ q ∈ allScores (strLower text), q.2 ≤ b.2) ∧
        (∀ q ∈ L1, q.2 < b.2)) := by
  refine ⟨rfl, ?_, ?_⟩
  · intro hz
    unfold categorize_expense
    have hf : categoryScores (strLower text) = [] := by
      rw [categoryScores_eq_filter]
      apply List.filter_eq_nil_iff.mpr
      intro q hq
      simp [hz q hq]
    rw [hf]
  · intro q0 hq0 hpos
    have hmem : q0 ∈ categoryScores (strLower text) := by
      rw [categoryScores_eq_filter]
      exact List.mem_filter.mpr ⟨hq0, by simpa using hpos⟩
    unfold categorize_expense
    rcases hF : categoryScores (strLower text) with _ | ⟨h, t⟩
    · rw [hF] at hmem
      cases hmem
    · obtain ⟨u1, u2, heq, hlt, hle⟩ := firstMaxBy_decomp t h
      have hbmem : firstMaxBy h t ∈ h :: t := by
        rw [heq]
        exact List.mem_append_right u1 (List.mem_cons_self _ _)
      have hbpos : 0 < (firstMaxBy h t).2 := by
        have : firstMaxBy h t ∈ categoryScores (strLower text) := by
          rw [hF]
          exact hbmem
        rw [categoryScores_eq_filter] at this
        simpa using (List.mem_filter.mp this).2
      have hFeq : (allScores (strLower text)).filter (fun q => decide (0 < q.2)) =
          u1 ++ firstMaxBy h t :: u2 := by
        rw [← categoryScores_eq_filter, hF]
        exact heq
      obtain ⟨L1, L2, hL, hL1⟩ := filter_decomp _ u1 u2 _ hFeq hlt hbpos
      refine ⟨L1, firstMaxBy h t, L2, hL, ?_, hbpos, ?_, hL1⟩
      · rfl
      · apply le_of_filter_le
        rw [hFeq, ← heq]
        exact hle

/-- Witness for C7 at a text with a positive keyword score. -/
theorem C7_categorize_first_max_witness :
    (ExpenseCategory.MEALS, 1) ∈ allScores (strLower (strCodes "lunch today")) ∧
    ∃ L1 b L2, allScores (strLower (strCodes "lunch today")) = L1 ++ b :: L2 ∧
      categorize_expense (strCodes "lunch today") = catValue b.1 ∧ 0 < b.2 ∧
      (∀ q ∈ allScores (strLower (strCodes "lunch today")), q.2 ≤ b.2) ∧
      (∀ q ∈ L1, q.2 < b.2) :=
  ⟨by decide,
   (C7_categorize_first_max (strCodes "lunch today")).2.2 (ExpenseCategory.MEALS, 1)
     (by decide) (by decide)⟩

/-- C10: for every input text, categorization returns the Miscellaneous
default or the value of one of the ten keyword-backed categories of the
table; the five remaining enum members are never returned. -/
theorem C10_category_range (text : List Nat) :
    (categorize_expense text = catValue .MISCELLANEOUS ∨
      ∃ p ∈ uaeCategories, categorize_expense text = catValue p.1) ∧
    categorize_expense text ≠ catValue .OFFICE_SUPPLIES ∧
    categorize_expense text ≠ catValue .TELECOMMUNICATIONS ∧
    categorize_expense text ≠ catValue .MAINTENANCE ∧
    categorize_expense text ≠ catValue .TRAINING ∧
    categorize_expense text ≠ catValue .BANK_CHARGES := by
  have h1 : categorize_expense text = catValue .MISCELLANEOUS ∨
      ∃ p ∈ uaeCategories, categorize_expense text = catValue p.1 := by
    unfold categorize_expense
    rcases hF : categoryScores (strLower text) with _ | ⟨h, t⟩
    · left
      rfl
    · right
      obtain ⟨u1, u2, heq, _, _⟩ := firstMaxBy_decomp t h
      have hbmem : firstMaxBy h t ∈ categoryScores (strLower text) := by
        rw [hF, heq]
        exact List.mem_append_right u1 (List.mem_cons_self _ _)
      obtain ⟨p, hp, hfp⟩ := List.mem_filterMap.mp hbmem
      by_cases hs : 0 < keywordScore p.2 (strLower text)
      · rw [if_pos hs] at hfp
        refine ⟨p, hp, ?_⟩
        have hpair : (p.1, keywordScore p.2 (strLower text)) = firstMaxBy h t :=
          Option.some.inj hfp
        show catValue (firstMaxBy h t).1 = catValue p.1
        rw [← hpair]
      · rw [if_neg hs] at hfp
        cases hfp
  have h2 : ∀ p ∈ uaeCategories,
      catValue p.1 ≠ catValue .OFFICE_SUPPLIES ∧
      catValue p.1 ≠ catValue .TELECOMMUNICATIONS ∧
      catValue p.1 ≠ catValue .MAINTENANCE ∧
      catValue p.1 ≠ catValue .TRAINING ∧
      catValue p.1 ≠ catValue .BANK_CHARGES := by decide
  rcases h1 with h | ⟨p, hp, h⟩
  · refine ⟨Or.inl h, ?_, ?_, ?_, ?_, ?_⟩ <;> rw [h] <;> decide
  · obtain ⟨a1, a2, a3, a4, a5⟩ := h2 p hp
    refine ⟨Or.inr ⟨p, hp, h⟩, ?_, ?_, ?_, ?_, ?_⟩ <;> rw [h]
    · exact a1
    · exact a2
    · exact a3
    · exact a4
    · exact a5

/-- Counterexample to C2: submitting the same source text twice, the
second `save_invoice` call returns `true` — the same ordinary success
value as the first call — instead of surfacing a distinct
DuplicateRejected outcome; the function's only other outcome (`false`)
reports a database exception, so no duplicate-specific outcome exists. -/
theorem C2_no_duplicate_outcome :
    (save_invoice
      (save_invoice [] (strCodes "user1")
        (extract_structured_data dparse0 today0 (strCodes "total: 9.50"))).2
      (strCodes "user1")
      (extract_structured_data dparse0 today0 (strCodes "total: 9.50"))).1 = true ∧
    (save_invoice [] (strCodes "user1")
      (extract_structured_data dparse0 today0 (strCodes "total: 9.50"))).1 = true :=
  ⟨rfl, rfl⟩

/-- C2 amended: submitting the same source text twice leaves exactly one
persisted row carrying the record's fingerprint — `INSERT OR REPLACE` on
the `UNIQUE` hash column replaces the first row — while both calls report
the ordinary success value `true`, with no distinct DuplicateRejected
outcome for the caller. -/
theorem C2_resubmit_single_row (db : List InvoiceRow) (u : List Nat)
    (dparse : List Nat → Option PyDate) (today : PyDate) (text : List Nat) :
    (save_invoice db u (extract_structured_data dparse today text)).1 = true ∧
    (save_invoice (save_invoice db u (extract_structured_data dparse today text)).2 u
      (extract_structured_data dparse today text)).1 = true ∧
    ((save_invoice (save_invoice db u (extract_structured_data dparse today text)).2 u
        (extract_structured_data dparse today text)).2.filter
      (fun row => row.invoice_hash ==
        invoiceHash (extract_structured_data dparse today text))).length = 1 := by
  refine ⟨rfl, rfl, ?_⟩
  simp only [save_invoice, List.filter_append, List.filter_filter, List.length_append]
  simp [List.filter_cons, beq_self_eq_true]

/-- Counterexample to C8: empty raw text does not surface as a hard
failure — extraction returns this ordinary defaulted record (zero amount,
sentinel vendor, today's date, zero confidence, review flagged), exactly
the kind of value the claim reserves for non-empty inputs. -/
theorem C8_empty_text_returns_record :
    extract_structured_data dparse0 today0 (strCodes "") =
      { raw_text := []
        invoice_number := []
        amount := 0
        subtotal := 0
        vat_amount := 0
        vat_rate := 5
        date := strCodes "2026-10-12"
        due_date := []
        vendor_name := unknownVendor
        vendor_trn := []
        vendor_address := []
        vendor_phone := []
        customer_details := []
        category := catValue .MISCELLANEOUS
        description := strCodes "Invoice processing"
        line_items := []
        currency := strCodes "AED"
        confidence := 0
        needs_review := true
        validation_errors := [Finding.noValidAmount, Finding.vendorUnidentified,
                              Finding.invoiceNumberMissing] } := by
  decide

/-- C8 amended: no raw text is a hard failure — extraction always returns
a record echoing its input, and on empty text it returns the default
low-confidence record: zero amount, the vendor sentinel, today's date and
a confidence clamped to zero. -/
theorem C8_extraction_total (dparse : List Nat → Option PyDate) (today : PyDate)
    (text : List Nat) :
    (extract_structured_data dparse today text).raw_text = text ∧
    (extract_structured_data dparse today []).amount = 0 ∧
    (extract_structured_data dparse today []).vendor_name = unknownVendor ∧
    (extract_structured_data dparse today []).date = fmtDate today ∧
    (extract_structured_data dparse today []).confidence = 0 := by
  have hbase : extractBase dparse today [] =
      { raw_text := []
        date := fmtDate today
        vendor_name := unknownVendor
        category := catValue .MISCELLANEOUS
        description := strCodes "Invoice processing" } := rfl
  refine ⟨rfl, rfl, rfl, rfl, ?_⟩
  have hc : (extract_structured_data dparse today []).confidence =
      calculate_confidence today
        { extractBase dparse today [] with
          validation_errors := validate_data today (extractBase dparse today []) } := rfl
  rw [hc, confidence_closed_form]
  have hlen : 3 ≤ (validate_data today (extractBase dparse today [])).length := by
    rw [hbase]
    simp only [validate_data]
    simp [List.length_append]
  have hterms : confTerms today
      { extractBase dparse today [] with
        validation_errors := validate_data today (extractBase dparse today []) } =
      0 - ((validate_data today (extractBase dparse today [])).length : ℚ) * (5 / 100) := by
    rw [confTerms]
    rw [hbase]
    norm_num [dateSignal, unknownVendor]
  rw [hterms]
  have hneg : (0 : ℚ) - ((validate_data today (extractBase dparse today [])).length : ℚ)
      * (5 / 100) ≤ 0 := by
    have : (3 : ℚ) ≤ ((validate_data today (extractBase dparse today [])).length : ℚ) := by
      exact_mod_cast hlen
    linarith
  have : min 1 ((0 : ℚ) - ((validate_data today (extractBase dparse today [])).length : ℚ)
      * (5 / 100)) ≤ 0 := le_trans (min_le_right _ _) hneg
  exact max_eq_left this

theorem findMatch_spec (t : BankTxn) :
    ∀ (invs rest : List RInvoice) (inv : RInvoice),
    findMatch t invs = some (inv, rest) →
    txnMatches inv t = true ∧ invs.Perm (inv :: rest) := by
  intro invs
  induction invs with
  | nil => intro rest inv h; cases h
  | cons x invs ih =>
      intro rest inv h
      by_cases hm : txnMatches x t = true
      · rw [findMatch, if_pos hm] at h
        simp only [Option.some.injEq, Prod.mk.injEq] at h
        obtain ⟨h1, h2⟩ := h
        subst h1
        subst h2
        exact ⟨hm, List.Perm.refl _⟩
      · rw [findMatch, if_neg hm] at h
        cases hf : findMatch t invs with
        | none => rw [hf] at h; cases h
        | some pr =>
            rw [hf] at h
            obtain ⟨m, others⟩ := pr
            simp only [Option.some.injEq, Prod.mk.injEq] at h
            obtain ⟨h1, h2⟩ := h
            obtain ⟨hmm, hperm⟩ := ih others m hf
            rw [← h1, ← h2]
            exact ⟨hmm, (hperm.cons x).trans (List.Perm.swap m x others)⟩

theorem reconcile_spec (ts : List BankTxn) :
    ∀ invs : List RInvoice,
    (((reconcile invs ts).1.map Prod.fst) ++ (reconcile invs ts).2.1).Perm invs ∧
    (∀ p ∈ (reconcile invs ts).1,
      txnMatches p.1 p.2 = true ∧ p.2.amount < 0 ∧ p.2.reconciled = false) ∧
    (reconcile invs ts).1.length ≤ ts.length := by
  induction ts with
  | nil =>
      intro invs
      have h : reconcile invs [] = ([], invs, []) := rfl
      rw [h]
      exact ⟨by simp, by simp, by simp⟩
  | cons t ts ih =>
      intro invs
      by_cases ht : t.amount < 0 ∧ t.reconciled = false
      · cases hfm : findMatch t invs with
        | some pr =>
            obtain ⟨inv, rest⟩ := pr
            obtain ⟨hmm, hperm⟩ := findMatch_spec t invs rest inv hfm
            have hred : reconcile invs (t :: ts) =
                ((inv, t) :: (reconcile rest ts).1, (reconcile rest ts).2.1,
                 { t with reconciled := true } :: (reconcile rest ts).2.2) := by
              simp only [reconcile, if_pos ht, hfm]
            obtain ⟨ihperm, ihmatch, ihlen⟩ := ih rest
            rw [hred]
            refine ⟨?_, ?_, ?_⟩
            · simp only [List.map_cons, List.cons_append]
              exact (ihperm.cons inv).trans hperm.symm
            · intro p hp
              rcases List.mem_cons.mp hp with rfl | hp
              · exact ⟨hmm, ht.1, ht.2⟩
              · exact ihmatch p hp
            · simpa using Nat.succ_le_succ ihlen
        | none =>
            have hred : reconcile invs (t :: ts) =
                ((reconcile invs ts).1, (reconcile invs ts).2.1,
                 t :: (reconcile invs ts).2.2) := by
              simp only [reconcile, if_pos ht, hfm]
            obtain ⟨ihperm, ihmatch, ihlen⟩ := ih invs
            rw [hred]
            exact ⟨ihperm, ihmatch, Nat.le_succ_of_le ihlen⟩
      · have hred : reconcile invs (t :: ts) =
            ((reconcile invs ts).1, (reconcile invs ts).2.1,
             t :: (reconcile invs ts).2.2) := by
          simp only [reconcile, if_neg ht]
        obtain ⟨ihperm, ihmatch, ihlen⟩ := ih invs
        rw [hred]
        exact ⟨ihperm, ihmatch, Nat.le_succ_of_le ihlen⟩

/-- The Acme invoice of the specification's reconciliation example. -/
def acmeInvoice : RInvoice := { vendor_name := strCodes "Acme", amount := 250 }

/-- The Acme transaction of the specification's reconciliation example. -/
def acmeTxn : BankTxn :=
  { date := strCodes "2026-10-01", description := strCodes "Payment to Acme LLC",
    amount := -250 }

/-- C9 (spec-modelled matcher): on the example — one unpaid Acme invoice of
250.00 and one unreconciled transaction `Payment to Acme LLC` of −250.00 —
reconcile returns one match, the invoice becomes `paid` with paymentDate
the transaction date, and the transaction is marked reconciled.  In
general every returned pair satisfies the match predicate (absolute
amounts equal, vendor a case-insensitive substring of the description) on
an outgoing unreconciled transaction; the matched invoices together with
the remaining working set are a permutation of the input (each invoice is
consumed at most once), and the number of matches never exceeds the number
of transactions (each transaction matches at most once). -/
theorem C9_reconcile_greedy_match :
    (matchCount (reconcile [acmeInvoice] [acmeTxn]).1 = 1 ∧
     paidInvoices (reconcile [acmeInvoice] [acmeTxn]).1 =
       [{ acmeInvoice with
          status := strCodes "paid"
          payment_date := acmeTxn.date }] ∧
     (reconcile [acmeInvoice] [acmeTxn]).2.2 = [{ acmeTxn with reconciled := true }] ∧
     (reconcile [acmeInvoice] [acmeTxn]).2.1 = []) ∧
    (∀ (invs : List RInvoice) (ts : List BankTxn),
      (((reconcile invs ts).1.map Prod.fst) ++ (reconcile invs ts).2.1).Perm invs ∧
      (∀ p ∈ (reconcile invs ts).1,
        txnMatches p.1 p.2 = true ∧ p.2.amount < 0 ∧ p.2.reconciled = false) ∧
      matchCount (reconcile invs ts).1 ≤ ts.length) := by
  constructor
  · refine ⟨by decide, by decide, by decide, by decide⟩
  · intro invs ts
    exact reconcile_spec ts invs

/-- Witness for C9's general part at the concrete example pair. -/
theorem C9_reconcile_greedy_match_witness :
    (acmeInvoice, acmeTxn) ∈ (reconcile [acmeInvoice] [acmeTxn]).1 ∧
    txnMatches acmeInvoice acmeTxn = true ∧ acmeTxn.amount < 0 :=
  ⟨by decide,
   ((C9_reconcile_greedy_match.2 [acmeInvoice] [acmeTxn]).2.1
     (acmeInvoice, acmeTxn) (by decide)).1,
   ((C9_reconcile_greedy_match.2 [acmeInvoice] [acmeTxn]).2.1
     (acmeInvoice, acmeTxn) (by decide)).2.1⟩

end Save2
